import Mathlib

/-!
Verification of the orchestrator repository's specification against its
TypeScript sources, via a shallow embedding in Lean.

Conventions used throughout:
* JavaScript numbers that only ever hold integer values (timestamps in
  milliseconds, counters, digit values) are embedded as `Nat` or `Int`.
* JavaScript divisions that produce fractions (confidence scores, hit
  rates) are embedded as exact rationals (`Rat`); no claim under
  consideration depends on binary floating-point rounding.
* `Date.now()` is passed explicitly as a `now : Nat` argument.
* A JavaScript `Map` is embedded as an association list that preserves
  insertion order, exactly as `Map` iteration does.
-/

namespace CsvDetector

/-- Character class `\d` of the JavaScript regexes: the ASCII digits. -/
def isDigitChar (c : Char) : Bool := '0' ≤ c && c ≤ '9'

/-- `cpf.replace(/\D/g, '')` keeps exactly the decimal digits of the input,
in order; we record each kept digit by its numeric value
(`parseInt(numbers[i])` in the source). -/
def extractDigits (s : String) : List Nat :=
  (s.data.filter isDigitChar).map (fun c => c.toNat - '0'.toNat)

/-- The test `/^(\d)\1{10}$/.test(numbers)`: an 11-character string of
digits all equal to the first. -/
def allSame11 (ds : List Nat) : Bool :=
  match ds with
  | [] => false
  | d :: rest => rest.length == 10 && rest.all (· == d)

/-- The test `/^(\d)\1{13}$/.test(numbers)`: a 14-character string of
digits all equal to the first. -/
def allSame14 (ds : List Nat) : Bool :=
  match ds with
  | [] => false
  | d :: rest => rest.length == 13 && rest.all (· == d)

/-- First CPF check-digit loop:
`for (i = 0; i < 9; i++) sum += parseInt(numbers[i]) * (10 - i)`. -/
def cpfSum1 (num : List Nat) : Nat :=
  (List.range 9).foldl (fun sum i => sum + num.getD i 0 * (10 - i)) 0

/-- Second CPF check-digit loop:
`for (i = 0; i < 10; i++) sum += parseInt(numbers[i]) * (11 - i)`. -/
def cpfSum2 (num : List Nat) : Nat :=
  (List.range 10).foldl (fun sum i => sum + num.getD i 0 * (11 - i)) 0

/-- `let digit = 11 - (sum % 11); if (digit > 9) digit = 0;` -/
def checkDigit (sum : Nat) : Nat :=
  if 11 - sum % 11 > 9 then 0 else 11 - sum % 11

/-- Body of `DataTypeInference.validateCPF` (src/src/lib/csv-detector.ts,
lines 666-690) after the digit extraction, translated clause by clause. -/
def validateCPFdigits (numbers : List Nat) : Bool :=
  if numbers.length ≠ 11 then false
  else if allSame11 numbers then false
  else
    (numbers.getD 9 0 == checkDigit (cpfSum1 numbers)) &&
    (numbers.getD 10 0 == checkDigit (cpfSum2 numbers))

/-- `DataTypeInference.validateCPF`: digit extraction followed by the
length, repetition and check-digit tests. -/
def validateCPF (cpf : String) : Bool :=
  validateCPFdigits (extractDigits cpf)

/-- `const weights1 = [5, 4, 3, 2, 9, 8, 7, 6, 5, 4, 3, 2]` of
`validateCNPJ`. -/
def cnpjWeights1 : List Nat := [5, 4, 3, 2, 9, 8, 7, 6, 5, 4, 3, 2]

/-- `const weights2 = [6, 5, 4, 3, 2, 9, 8, 7, 6, 5, 4, 3, 2]` of
`validateCNPJ`. -/
def cnpjWeights2 : List Nat := [6, 5, 4, 3, 2, 9, 8, 7, 6, 5, 4, 3, 2]

/-- First CNPJ check-digit loop:
`for (i = 0; i < 12; i++) sum += parseInt(numbers[i]) * weights1[i]`. -/
def cnpjSum1 (num : List Nat) : Nat :=
  (List.range 12).foldl (fun sum i => sum + num.getD i 0 * cnpjWeights1.getD i 0) 0

/-- Second CNPJ check-digit loop:
`for (i = 0; i < 13; i++) sum += parseInt(numbers[i]) * weights2[i]`. -/
def cnpjSum2 (num : List Nat) : Nat :=
  (List.range 13).foldl (fun sum i => sum + num.getD i 0 * cnpjWeights2.getD i 0) 0

/-- Body of `DataTypeInference.validateCNPJ` (src/src/lib/csv-detector.ts,
lines 695-721) after the digit extraction. -/
def validateCNPJdigits (numbers : List Nat) : Bool :=
  if numbers.length ≠ 14 then false
  else if allSame14 numbers then false
  else
    (numbers.getD 12 0 == checkDigit (cnpjSum1 numbers)) &&
    (numbers.getD 13 0 == checkDigit (cnpjSum2 numbers))

/-- `DataTypeInference.validateCNPJ`. -/
def validateCNPJ (cnpj : String) : Bool :=
  validateCNPJdigits (extractDigits cnpj)

/-- Specification-side reading of claim C1: the weighted sum of the first
nine digits with descending weights 10..2. -/
def cpfSpecSum1 (ds : List Nat) : Nat :=
  (List.zipWith (· * ·) (ds.take 9) [10, 9, 8, 7, 6, 5, 4, 3, 2]).sum

/-- Specification-side reading of claim C1: the weighted sum of the first
ten digits with descending weights 11..2. -/
def cpfSpecSum2 (ds : List Nat) : Nat :=
  (List.zipWith (· * ·) (ds.take 10) [11, 10, 9, 8, 7, 6, 5, 4, 3, 2]).sum

/-- The claim's wording of the check-digit map:
`digit = 11 - (sum mod 11)`, mapped to 0 when greater than 9. -/
def specCheckDigit (sum : Nat) : Nat :=
  if 11 - sum % 11 > 9 then 0 else 11 - sum % 11

/-- Claim C1's characterisation of a valid CPF, phrased over the digit
list obtained after removing all non-digit characters. -/
def cpfValidSpec (ds : List Nat) : Prop :=
  ds.length = 11 ∧
  ¬ (∀ d ∈ ds, d = ds.headD 0) ∧
  ds.getD 9 0 = specCheckDigit (cpfSpecSum1 ds) ∧
  ds.getD 10 0 = specCheckDigit (cpfSpecSum2 ds)

/-- Specification-side reading of claim C2: weighted sum with the weight
sequence [5,4,3,2,9,8,7,6,5,4,3,2]. -/
def cnpjSpecSum1 (ds : List Nat) : Nat :=
  (List.zipWith (· * ·) (ds.take 12) [5, 4, 3, 2, 9, 8, 7, 6, 5, 4, 3, 2]).sum

/-- Specification-side reading of claim C2: weighted sum with the weight
sequence [6,5,4,3,2,9,8,7,6,5,4,3,2]. -/
def cnpjSpecSum2 (ds : List Nat) : Nat :=
  (List.zipWith (· * ·) (ds.take 13) [6, 5, 4, 3, 2, 9, 8, 7, 6, 5, 4, 3, 2]).sum

/-- Claim C2's characterisation of a valid CNPJ. -/
def cnpjValidSpec (ds : List Nat) : Prop :=
  ds.length = 14 ∧
  ¬ (∀ d ∈ ds, d = ds.headD 0) ∧
  ds.getD 12 0 = specCheckDigit (cnpjSpecSum1 ds) ∧
  ds.getD 13 0 = specCheckDigit (cnpjSpecSum2 ds)

theorem checkDigit_eq_spec (n : Nat) : checkDigit n = specCheckDigit n := rfl

theorem validateCPFdigits_iff (ds : List Nat) :
    validateCPFdigits ds = true ↔ cpfValidSpec ds := by
  by_cases hlen : ds.length = 11
  · obtain ⟨d0, d1, d2, d3, d4, d5, d6, d7, d8, d9, d10, rfl⟩ :
        ∃ d0 d1 d2 d3 d4 d5 d6 d7 d8 d9 d10,
          ds = [d0, d1, d2, d3, d4, d5, d6, d7, d8, d9, d10] := by
      match ds, hlen with
      | [d0, d1, d2, d3, d4, d5, d6, d7, d8, d9, d10], _ =>
        exact ⟨d0, d1, d2, d3, d4, d5, d6, d7, d8, d9, d10, rfl⟩
    have h1 : cpfSum1 [d0, d1, d2, d3, d4, d5, d6, d7, d8, d9, d10] =
        cpfSpecSum1 [d0, d1, d2, d3, d4, d5, d6, d7, d8, d9, d10] := by
      simp [cpfSum1, cpfSpecSum1, List.range_succ]
      ring
    have h2 : cpfSum2 [d0, d1, d2, d3, d4, d5, d6, d7, d8, d9, d10] =
        cpfSpecSum2 [d0, d1, d2, d3, d4, d5, d6, d7, d8, d9, d10] := by
      simp [cpfSum2, cpfSpecSum2, List.range_succ]
      ring
    have hsame : allSame11 [d0, d1, d2, d3, d4, d5, d6, d7, d8, d9, d10] = true ↔
        (∀ d ∈ [d0, d1, d2, d3, d4, d5, d6, d7, d8, d9, d10],
          d = [d0, d1, d2, d3, d4, d5, d6, d7, d8, d9, d10].headD 0) := by
      simp only [allSame11, List.headD_cons, List.forall_mem_cons,
        List.all_cons, List.all_nil, Bool.and_eq_true, beq_iff_eq,
        List.length_cons, List.length_nil, Nat.reduceBEq, true_and,
        and_true, List.forall_mem_ne, forall_eq]
      tauto
    unfold validateCPFdigits cpfValidSpec
    rw [if_neg (by simp)]
    by_cases hs : allSame11 [d0, d1, d2, d3, d4, d5, d6, d7, d8, d9, d10] = true
    · rw [if_pos hs]
      simp only [Bool.false_eq_true, false_iff]
      rintro ⟨-, hne, -⟩
      exact hne (hsame.mp hs)
    · rw [if_neg hs]
      simp only [Bool.and_eq_true, beq_iff_eq, h1, h2, checkDigit_eq_spec]
      constructor
      · rintro ⟨hx, hy⟩
        exact ⟨by simp, fun h => hs (hsame.mpr h), hx, hy⟩
      · rintro ⟨-, -, hx, hy⟩
        exact ⟨hx, hy⟩
  · unfold validateCPFdigits cpfValidSpec
    rw [if_pos hlen]
    simp only [Bool.false_eq_true, false_iff]
    rintro ⟨h, -⟩
    exact hlen h

theorem validateCNPJdigits_iff (ds : List Nat) :
    validateCNPJdigits ds = true ↔ cnpjValidSpec ds := by
  by_cases hlen : ds.length = 14
  · obtain ⟨d0, d1, d2, d3, d4, d5, d6, d7, d8, d9, d10, d11, d12, d13, rfl⟩ :
        ∃ d0 d1 d2 d3 d4 d5 d6 d7 d8 d9 d10 d11 d12 d13,
          ds = [d0, d1, d2, d3, d4, d5, d6, d7, d8, d9, d10, d11, d12, d13] := by
      match ds, hlen with
      | [d0, d1, d2, d3, d4, d5, d6, d7, d8, d9, d10, d11, d12, d13], _ =>
        exact ⟨d0, d1, d2, d3, d4, d5, d6, d7, d8, d9, d10, d11, d12, d13, rfl⟩
    have h1 : cnpjSum1 [d0, d1, d2, d3, d4, d5, d6, d7, d8, d9, d10, d11, d12, d13] =
        cnpjSpecSum1 [d0, d1, d2, d3, d4, d5, d6, d7, d8, d9, d10, d11, d12, d13] := by
      simp [cnpjSum1, cnpjSpecSum1, cnpjWeights1, List.range_succ]
      ring
    have h2 : cnpjSum2 [d0, d1, d2, d3, d4, d5, d6, d7, d8, d9, d10, d11, d12, d13] =
        cnpjSpecSum2 [d0, d1, d2, d3, d4, d5, d6, d7, d8, d9, d10, d11, d12, d13] := by
      simp [cnpjSum2, cnpjSpecSum2, cnpjWeights2, List.range_succ]
      ring
    have hsame : allSame14 [d0, d1, d2, d3, d4, d5, d6, d7, d8, d9, d10, d11, d12, d13] = true ↔
        (∀ d ∈ [d0, d1, d2, d3, d4, d5, d6, d7, d8, d9, d10, d11, d12, d13],
          d = [d0, d1, d2, d3, d4, d5, d6, d7, d8, d9, d10, d11, d12, d13].headD 0) := by
      simp only [allSame14, List.headD_cons, List.forall_mem_cons,
        List.all_cons, List.all_nil, Bool.and_eq_true, beq_iff_eq,
        List.length_cons, List.length_nil, Nat.reduceBEq, true_and,
        and_true, List.forall_mem_ne, forall_eq]
      tauto
    unfold validateCNPJdigits cnpjValidSpec
    rw [if_neg (by simp)]
    by_cases hs : allSame14 [d0, d1, d2, d3, d4, d5, d6, d7, d8, d9, d10, d11, d12, d13] = true
    · rw [if_pos hs]
      simp only [Bool.false_eq_true, false_iff]
      rintro ⟨-, hne, -⟩
      exact hne (hsame.mp hs)
    · rw [if_neg hs]
      simp only [Bool.and_eq_true, beq_iff_eq, h1, h2, checkDigit_eq_spec]
      constructor
      · rintro ⟨hx, hy⟩
        exact ⟨by simp, fun h => hs (hsame.mpr h), hx, hy⟩
      · rintro ⟨-, -, hx, hy⟩
        exact ⟨hx, hy⟩
  · unfold validateCNPJdigits cnpjValidSpec
    rw [if_pos hlen]
    simp only [Bool.false_eq_true, false_iff]
    rintro ⟨h, -⟩
    exact hlen h

/-- C1: `DataTypeInference.validateCPF` returns true iff the string, after
removing all non-digit characters, has exactly 11 digits, the digits are
not all equal, and both check digits (positions 10 and 11) equal the
values computed by the modulo-11 check-digit algorithm. -/
theorem C1_validateCPF_correct (s : String) :
    validateCPF s = true ↔ cpfValidSpec (extractDigits s) :=
  validateCPFdigits_iff (extractDigits s)

/-- C2: `DataTypeInference.validateCNPJ` returns true iff the string, after
removing all non-digit characters, has exactly 14 digits, the digits are
not all equal, and both check digits (positions 13 and 14) equal the
values computed by the modulo-11 algorithm with the weight sequences
[5,4,3,2,9,8,7,6,5,4,3,2] and [6,5,4,3,2,9,8,7,6,5,4,3,2]. -/
theorem C2_validateCNPJ_correct (s : String) :
    validateCNPJ s = true ↔ cnpjValidSpec (extractDigits s) :=
  validateCNPJdigits_iff (extractDigits s)

end CsvDetector

namespace Cache

/-- `strategy: 'lru' | 'fifo' | 'lfu'` of `CacheConfig`. -/
inductive Strategy where
  | lru | fifo | lfu
deriving DecidableEq, Repr

/-- `CacheConfig` (src/unnamed/part_002): `ttl` in seconds, `maxSize`,
eviction strategy. -/
structure CacheConfig where
  ttl : Nat
  maxSize : Nat
  strategy : Strategy
deriving DecidableEq, Repr

/-- `CacheEntry<T>`: value, insertion timestamp (ms), `ttl` in ms,
access count, last-access timestamp (ms). -/
structure CacheEntry (α : Type) where
  value : α
  timestamp : Nat
  ttl : Nat
  accessCount : Nat
  lastAccessed : Nat
deriving DecidableEq, Repr

/-- `CacheStats`. The hit rate is an exact rational here. -/
structure CacheStats where
  hits : Nat
  misses : Nat
  size : Nat
  hitRate : Rat
  evictions : Nat
deriving DecidableEq, Repr

/-- The `MemoryCache` object: the JS `Map` is an association list in
insertion order. -/
structure MemoryCache (α : Type) where
  entries : List (String × CacheEntry α)
  config : CacheConfig
  stats : CacheStats
deriving DecidableEq, Repr

/-- `Map.get`: the entry stored under a key. -/
def mapGet {β : Type} (l : List (String × β)) (k : String) :
    Option β :=
  match l with
  | [] => none
  | (k', e) :: rest => if k' = k then some e else mapGet rest k

/-- `Map.set`: replace in place when the key exists (keeping its
insertion position, as JS `Map` does), otherwise append. -/
def mapSet {β : Type} (l : List (String × β)) (k : String)
    (e : β) : List (String × β) :=
  match l with
  | [] => [(k, e)]
  | (k', e') :: rest =>
      if k' = k then (k, e) :: rest else (k', e') :: mapSet rest k e

/-- `Map.delete`: remove the entry stored under the key, if any. -/
def mapDelete {β : Type} (l : List (String × β)) (k : String) :
    List (String × β) :=
  match l with
  | [] => []
  | (k', e') :: rest =>
      if k' = k then rest else (k', e') :: mapDelete rest k

/-- `n < b` where `b` may be the JS `Infinity` (`none`). -/
def ltMaybeInf (n : Nat) (b : Option Nat) : Bool :=
  match b with
  | none => true
  | some m => n < m

/-- The common shape of the `findLRU` / `findLFU` / `findFIFO` scans: walk
the entries keeping the best (key, score) pair, replacing it whenever the
current entry scores strictly less. -/
def minFoldAux {α : Type} (f : CacheEntry α → Nat) :
    List (String × CacheEntry α) → String × Option Nat → String × Option Nat
  | [], acc => acc
  | (k, e) :: rest, (bk, bt) =>
      minFoldAux f rest (if ltMaybeInf (f e) bt then (k, some (f e)) else (bk, bt))

/-- `MemoryCache.findLRU`: scan for the entry with the least
`lastAccessed`, starting from `oldestKey = ''`, `oldestTime = Date.now()`. -/
def findLRU {α : Type} (now : Nat) (l : List (String × CacheEntry α)) : String :=
  (minFoldAux (fun e => e.lastAccessed) l ("", some now)).1

/-- `MemoryCache.findFIFO`: least insertion `timestamp`, starting from
`oldestKey = ''`, `oldestTime = Date.now()`. -/
def findFIFO {α : Type} (now : Nat) (l : List (String × CacheEntry α)) : String :=
  (minFoldAux (fun e => e.timestamp) l ("", some now)).1

/-- `MemoryCache.findLFU`: least `accessCount`, starting from
`leastUsedKey = ''`, `leastCount = Infinity` (`none`). -/
def findLFU {α : Type} (l : List (String × CacheEntry α)) : String :=
  (minFoldAux (fun e => e.accessCount) l ("", none)).1

/-- `MemoryCache.evict`: pick a key by strategy, delete it, and count an
eviction (the counter is incremented even when the scan returned the
initial `''` key and nothing was deleted, exactly as in the source). -/
def evict {α : Type} (now : Nat) (c : MemoryCache α) : MemoryCache α :=
  if c.entries.length = 0 then c
  else
    let keyToEvict :=
      match c.config.strategy with
      | .lru => findLRU now c.entries
      | .lfu => findLFU c.entries
      | .fifo => findFIFO now c.entries
    { c with
      entries := mapDelete c.entries keyToEvict,
      stats := { c.stats with evictions := c.stats.evictions + 1 } }

/-- `MemoryCache.set(key, value, ttl?)` at time `now`.  `ttl || config.ttl`
falls back to the configured TTL when the argument is absent or `0`. -/
def set {α : Type} (c : MemoryCache α) (now : Nat) (key : String) (value : α)
    (ttl? : Option Nat) : MemoryCache α :=
  let entryTtl :=
    match ttl? with
    | some t => if t ≠ 0 then t else c.config.ttl
    | none => c.config.ttl
  let c1 :=
    if c.entries.length ≥ c.config.maxSize ∧ (mapGet c.entries key).isNone then
      evict now c
    else c
  let entry : CacheEntry α :=
    { value := value, timestamp := now, ttl := entryTtl * 1000,
      accessCount := 0, lastAccessed := now }
  let newEntries := mapSet c1.entries key entry
  { c1 with
    entries := newEntries,
    stats := { c1.stats with size := newEntries.length } }

/-- `updateHitRate`. -/
def updateHitRate (s : CacheStats) : CacheStats :=
  let total := s.hits + s.misses
  { s with hitRate := if total > 0 then (s.hits : Rat) / (total : Rat) else 0 }

/-- `MemoryCache.get(key)` at time `now`: miss on absent key; expired
entries (`now - timestamp > ttl`) are deleted and count as misses; live
entries get their access statistics bumped and count as hits. -/
def get {α : Type} (c : MemoryCache α) (now : Nat) (key : String) :
    MemoryCache α × Option α :=
  match mapGet c.entries key with
  | none =>
      ({ c with stats := updateHitRate { c.stats with misses := c.stats.misses + 1 } },
       none)
  | some entry =>
      if (now : Int) - (entry.timestamp : Int) > (entry.ttl : Int) then
        ({ c with
            entries := mapDelete c.entries key,
            stats := updateHitRate { c.stats with misses := c.stats.misses + 1 } },
         none)
      else
        let entry' := { entry with
          accessCount := entry.accessCount + 1, lastAccessed := now }
        ({ c with
            entries := mapSet c.entries key entry',
            stats := updateHitRate { c.stats with hits := c.stats.hits + 1 } },
         some entry.value)

/-- `MemoryCache.delete(key)`. -/
def deleteKey {α : Type} (c : MemoryCache α) (key : String) :
    MemoryCache α × Bool :=
  let present := (mapGet c.entries key).isSome
  let newEntries := mapDelete c.entries key
  ({ c with
      entries := newEntries,
      stats := { c.stats with size := newEntries.length } },
   present)

/-- `MemoryCache.clear()`. -/
def clear {α : Type} (c : MemoryCache α) : MemoryCache α :=
  { c with
    entries := [],
    stats := { hits := 0, misses := 0, size := 0, hitRate := 0, evictions := 0 } }

/-- A fresh cache as built by the constructor. -/
def emptyCache {α : Type} (cfg : CacheConfig) : MemoryCache α :=
  { entries := [],
    config := cfg,
    stats := { hits := 0, misses := 0, size := 0, hitRate := 0, evictions := 0 } }

end Cache

namespace Cache

theorem mapGet_eq_none_iff {β : Type} (l : List (String × β)) (k : String) :
    mapGet l k = none ↔ k ∉ l.map Prod.fst := by
  induction l with
  | nil => simp [mapGet]
  | cons p rest ih =>
    obtain ⟨k', e'⟩ := p
    by_cases h : k' = k
    · simp [mapGet, h]
    · rw [mapGet, if_neg h, ih]
      simp only [List.map_cons, List.mem_cons, not_or]
      constructor
      · intro hn
        exact ⟨fun hh => h hh.symm, hn⟩
      · intro hn
        exact hn.2

theorem mapGet_mapSet_self {β : Type} (l : List (String × β))
    (k : String) (e : β) : mapGet (mapSet l k e) k = some e := by
  induction l with
  | nil => simp [mapSet, mapGet]
  | cons p rest ih =>
    obtain ⟨k', e'⟩ := p
    by_cases h : k' = k
    · simp [mapSet, mapGet, h]
    · simp [mapSet, mapGet, h, ih]

theorem mapDelete_sublist {β : Type} (l : List (String × β)) (k : String) :
    (mapDelete l k).Sublist l := by
  induction l with
  | nil => simp [mapDelete]
  | cons p rest ih =>
    obtain ⟨k', e'⟩ := p
    by_cases h : k' = k
    · subst h
      rw [mapDelete, if_pos rfl]
      exact List.sublist_cons_self _ _
    · rw [mapDelete, if_neg h]
      exact ih.cons₂ _

theorem mapDelete_length_of_mem {β : Type} (l : List (String × β))
    (k : String) (h : k ∈ l.map Prod.fst) :
    (mapDelete l k).length + 1 = l.length := by
  induction l with
  | nil => simp at h
  | cons p rest ih =>
    obtain ⟨k', e'⟩ := p
    by_cases hk : k' = k
    · simp [mapDelete, hk]
    · have : k ∈ rest.map Prod.fst := by
        simp at h
        rcases h with h | h
        · exact absurd h.symm hk
        · simpa using h
      simp [mapDelete, hk, ih this]

theorem mapGet_mapDelete_self {β : Type} (l : List (String × β))
    (k : String) (hnodup : (l.map Prod.fst).Nodup) :
    mapGet (mapDelete l k) k = none := by
  induction l with
  | nil => simp [mapDelete, mapGet]
  | cons p rest ih =>
    obtain ⟨k', e'⟩ := p
    simp only [List.map_cons, List.nodup_cons] at hnodup
    by_cases h : k' = k
    · subst h
      rw [mapDelete, if_pos rfl, mapGet_eq_none_iff]
      exact hnodup.1
    · simp [mapDelete, mapGet, h, ih hnodup.2]

theorem mapSet_mem {β : Type} (l : List (String × β)) (k : String)
    (e : β) (p : String × β) (hp : p ∈ mapSet l k e) :
    p = (k, e) ∨ p ∈ l := by
  induction l with
  | nil => simpa [mapSet] using hp
  | cons q rest ih =>
    obtain ⟨k', e'⟩ := q
    by_cases h : k' = k
    · simp [mapSet, h] at hp
      rcases hp with hp | hp
      · exact Or.inl (by simp [hp])
      · exact Or.inr (by simp [hp])
    · simp [mapSet, h] at hp
      rcases hp with hp | hp
      · exact Or.inr (by simp [hp])
      · rcases ih hp with h' | h'
        · exact Or.inl h'
        · exact Or.inr (by simp [h'])

theorem mapSet_keys_of_mem {β : Type} (l : List (String × β))
    (k : String) (e : β) (h : k ∈ l.map Prod.fst) :
    (mapSet l k e).map Prod.fst = l.map Prod.fst := by
  induction l with
  | nil => simp at h
  | cons q rest ih =>
    obtain ⟨k', e'⟩ := q
    by_cases hk : k' = k
    · simp [mapSet, hk]
    · have : k ∈ rest.map Prod.fst := by
        simp at h
        rcases h with h | h
        · exact absurd h.symm hk
        · simpa using h
      simp [mapSet, hk, ih this]

theorem mapSet_keys_of_not_mem {β : Type} (l : List (String × β))
    (k : String) (e : β) (h : k ∉ l.map Prod.fst) :
    (mapSet l k e).map Prod.fst = l.map Prod.fst ++ [k] := by
  induction l with
  | nil => simp [mapSet]
  | cons q rest ih =>
    obtain ⟨k', e'⟩ := q
    simp only [List.map_cons, List.mem_cons] at h
    push_neg at h
    have hk : k' ≠ k := fun hh => h.1 hh.symm
    simp [mapSet, hk, ih h.2]

theorem mapSet_length_of_mem {β : Type} (l : List (String × β))
    (k : String) (e : β) (h : k ∈ l.map Prod.fst) :
    (mapSet l k e).length = l.length := by
  have := congrArg List.length (mapSet_keys_of_mem l k e h)
  simpa using this

theorem mapSet_length_of_not_mem {β : Type} (l : List (String × β))
    (k : String) (e : β) (h : k ∉ l.map Prod.fst) :
    (mapSet l k e).length = l.length + 1 := by
  have := congrArg List.length (mapSet_keys_of_not_mem l k e h)
  simpa using this

/-- Case analysis for the eviction scans: either no entry ever beat the
initial accumulator, or the scan returns the key of a minimal entry. -/
theorem minFoldAux_cases {α : Type} (f : CacheEntry α → Nat) :
    ∀ (l : List (String × CacheEntry α)) (bk : String) (bt : Option Nat),
      (minFoldAux f l (bk, bt) = (bk, bt) ∧ ∀ p ∈ l, ltMaybeInf (f p.2) bt = false) ∨
      (∃ p ∈ l, minFoldAux f l (bk, bt) = (p.1, some (f p.2)) ∧
        ltMaybeInf (f p.2) bt = true ∧ ∀ q ∈ l, f p.2 ≤ f q.2) := by
  intro l
  induction l with
  | nil => intro bk bt; exact Or.inl ⟨rfl, by simp⟩
  | cons q rest ih =>
    intro bk bt
    obtain ⟨k, e⟩ := q
    by_cases hlt : ltMaybeInf (f e) bt = true
    · rcases ih k (some (f e)) with ⟨heq, hall⟩ | ⟨p, hp, heq, hplt, hmin⟩
      · refine Or.inr ⟨(k, e), by simp, ?_, hlt, ?_⟩
        · simpa [minFoldAux, hlt] using heq
        · intro q hq
          rcases List.mem_cons.mp hq with rfl | hq
          · exact le_refl _
          · have := hall q hq
            simp [ltMaybeInf] at this
            exact this
      · have hpe : f p.2 < f e := by simpa [ltMaybeInf] using hplt
        refine Or.inr ⟨p, List.mem_cons_of_mem _ hp, ?_, ?_, ?_⟩
        · simpa [minFoldAux, hlt] using heq
        · cases bt with
          | none => simp [ltMaybeInf]
          | some t =>
              have : f e < t := by simpa [ltMaybeInf] using hlt
              simp [ltMaybeInf]
              omega
        · intro q hq
          rcases List.mem_cons.mp hq with rfl | hq
          · exact le_of_lt hpe
          · exact hmin q hq
    · have hlt' : ltMaybeInf (f e) bt = false := by
        cases h : ltMaybeInf (f e) bt
        · rfl
        · exact absurd h hlt
      rcases ih bk bt with ⟨heq, hall⟩ | ⟨p, hp, heq, hplt, hmin⟩
      · refine Or.inl ⟨?_, ?_⟩
        · simpa [minFoldAux, hlt'] using heq
        · intro q hq
          rcases List.mem_cons.mp hq with rfl | hq
          · exact hlt'
          · exact hall q hq
      · refine Or.inr ⟨p, List.mem_cons_of_mem _ hp, ?_, hplt, ?_⟩
        · simpa [minFoldAux, hlt'] using heq
        · intro q hq
          rcases List.mem_cons.mp hq with rfl | hq
          · show f p.2 ≤ f e
            cases bt with
            | none => simp [ltMaybeInf] at hlt'
            | some t =>
                have h1 : f p.2 < t := by simpa [ltMaybeInf] using hplt
                have h2 : ¬ f e < t := by simpa [ltMaybeInf] using hlt'
                omega
          · exact hmin q hq

end Cache

namespace Cache

/-- Per-strategy condition letting the eviction scan beat its initial
accumulator: for `lru`/`fifo` some entry must be strictly older than
`Date.now()`; for `lfu` any entry beats `Infinity`. -/
def scanCanFind {α : Type} (c : MemoryCache α) (now : Nat) : Prop :=
  match c.config.strategy with
  | .lru => ∃ p ∈ c.entries, p.2.lastAccessed < now
  | .fifo => ∃ p ∈ c.entries, p.2.timestamp < now
  | .lfu => c.entries ≠ []

/-- The entry attains the strategy's minimum over the stored entries. -/
def minimalFor {α : Type} (st : Strategy) (e : CacheEntry α)
    (l : List (String × CacheEntry α)) : Prop :=
  match st with
  | .lru => ∀ q ∈ l, e.lastAccessed ≤ q.2.lastAccessed
  | .fifo => ∀ q ∈ l, e.timestamp ≤ q.2.timestamp
  | .lfu => ∀ q ∈ l, e.accessCount ≤ q.2.accessCount

/-- The key the eviction scan would delete. -/
def evictTarget {α : Type} (c : MemoryCache α) (now : Nat) : String :=
  match c.config.strategy with
  | .lru => findLRU now c.entries
  | .lfu => findLFU c.entries
  | .fifo => findFIFO now c.entries

theorem evictTarget_spec {α : Type} (c : MemoryCache α) (now : Nat)
    (h : scanCanFind c now) :
    ∃ p ∈ c.entries, evictTarget c now = p.1 ∧
      minimalFor c.config.strategy p.2 c.entries := by
  unfold evictTarget scanCanFind at *
  cases hst : c.config.strategy with
  | lru =>
    rw [hst] at h
    obtain ⟨w, hw, hwlt⟩ := h
    rcases minFoldAux_cases (fun e => e.lastAccessed) c.entries "" (some now) with
      ⟨-, hall⟩ | ⟨p, hp, heq, -, hmin⟩
    · have := hall w hw
      simp [ltMaybeInf, hwlt] at this
    · exact ⟨p, hp, by simp [findLRU, heq], by simpa [minimalFor] using hmin⟩
  | fifo =>
    rw [hst] at h
    obtain ⟨w, hw, hwlt⟩ := h
    rcases minFoldAux_cases (fun e => e.timestamp) c.entries "" (some now) with
      ⟨-, hall⟩ | ⟨p, hp, heq, -, hmin⟩
    · have := hall w hw
      simp [ltMaybeInf, hwlt] at this
    · exact ⟨p, hp, by simp [findFIFO, heq], by simpa [minimalFor] using hmin⟩
  | lfu =>
    rw [hst] at h
    obtain ⟨w, hw⟩ := List.exists_mem_of_ne_nil _ h
    rcases minFoldAux_cases (fun e => e.accessCount) c.entries "" none with
      ⟨-, hall⟩ | ⟨p, hp, heq, -, hmin⟩
    · have := hall w hw
      simp [ltMaybeInf] at this
    · exact ⟨p, hp, by simp [findLFU, heq], by simpa [minimalFor] using hmin⟩

/-- What `set` does when the cache is full and the key is fresh and the
scan succeeds: one minimal entry is deleted, the new entry is appended,
and the eviction counter is bumped. -/
theorem set_full_fresh_spec {α : Type} (c : MemoryCache α) (now : Nat)
    (key : String) (v : α) (ttl? : Option Nat)
    (habs : mapGet c.entries key = none)
    (hfull : c.entries.length ≥ c.config.maxSize)
    (hscan : scanCanFind c now) :
    ∃ p ∈ c.entries, minimalFor c.config.strategy p.2 c.entries ∧
      (∃ e' : CacheEntry α,
        (set c now key v ttl?).entries = mapSet (mapDelete c.entries p.1) key e') ∧
      (set c now key v ttl?).entries.length = c.entries.length ∧
      (set c now key v ttl?).stats.evictions = c.stats.evictions + 1 := by
  obtain ⟨p, hp, htgt, hmin⟩ := evictTarget_spec c now hscan
  have hne : c.entries ≠ [] := by
    intro h0
    unfold scanCanFind at hscan
    rcases hst : c.config.strategy with _ | _ | _ <;>
      simp only [hst, h0] at hscan <;> simp at hscan
  have hlen0 : ¬ c.entries.length = 0 := by
    simpa [List.length_eq_zero] using hne
  have hcond : c.entries.length ≥ c.config.maxSize ∧ (mapGet c.entries key).isNone := by
    exact ⟨hfull, by simp [habs]⟩
  have hev : evict now c =
      { c with
        entries := mapDelete c.entries p.1,
        stats := { c.stats with evictions := c.stats.evictions + 1 } } := by
    rw [evict, if_neg hlen0]
    have : (match c.config.strategy with
      | .lru => findLRU now c.entries
      | .lfu => findLFU c.entries
      | .fifo => findFIFO now c.entries) = evictTarget c now := rfl
    rw [this, htgt]
  have hkey_mem : p.1 ∈ c.entries.map Prod.fst :=
    List.mem_map_of_mem Prod.fst hp
  have habs' : key ∉ (mapDelete c.entries p.1).map Prod.fst := by
    intro hmem
    have hsub : ((mapDelete c.entries p.1).map Prod.fst).Sublist (c.entries.map Prod.fst) :=
      (mapDelete_sublist c.entries p.1).map Prod.fst
    exact (mapGet_eq_none_iff c.entries key).mp habs (hsub.mem hmem)
  have hsetE : (set c now key v ttl?).entries =
      mapSet (mapDelete c.entries p.1) key
        { value := v, timestamp := now,
          ttl := (match ttl? with
            | some t => if t ≠ 0 then t else c.config.ttl
            | none => c.config.ttl) * 1000,
          accessCount := 0, lastAccessed := now } := by
    simp only [set]
    rw [if_pos hcond, hev]
  have hsetS : (set c now key v ttl?).stats.evictions = c.stats.evictions + 1 := by
    simp only [set]
    rw [if_pos hcond, hev]
  refine ⟨p, hp, hmin, ⟨_, hsetE⟩, ?_, hsetS⟩
  rw [hsetE, mapSet_length_of_not_mem _ _ _ habs']
  have := mapDelete_length_of_mem c.entries p.1 hkey_mem
  omega
end Cache

namespace Cache

/-- `set` on an already-present key never evicts: the guard
`size >= maxSize && !cache.has(key)` is false. -/
theorem set_present_spec {α : Type} (c : MemoryCache α) (now : Nat)
    (key : String) (v : α) (ttl? : Option Nat)
    (hpres : mapGet c.entries key ≠ none) :
    (set c now key v ttl?).stats.evictions = c.stats.evictions ∧
    (set c now key v ttl?).entries.length = c.entries.length := by
  have hcond : ¬ (c.entries.length ≥ c.config.maxSize ∧ (mapGet c.entries key).isNone) := by
    rintro ⟨-, hn⟩
    rcases h : mapGet c.entries key with _ | e
    · exact hpres h
    · rw [h] at hn
      simp at hn
  have hmem : key ∈ c.entries.map Prod.fst := by
    by_contra hmem
    exact hpres ((mapGet_eq_none_iff c.entries key).mpr hmem)
  constructor
  · simp only [set]
    rw [if_neg hcond]
  · simp only [set]
    rw [if_neg hcond]
    exact mapSet_length_of_mem _ _ _ hmem

end Cache

namespace Cache

/-- C3 (amended): `MemoryCache.set` with an already-present key evicts
nothing; with a fresh key on a full cache it evicts exactly one entry
that attains the strategy's minimum (`lastAccessed` for lru,
`accessCount` for lfu, insertion `timestamp` for fifo) — provided the
eviction scan can beat its initial accumulator, i.e. for lru/fifo some
entry is strictly older than the current time (for lfu, the cache being
nonempty suffices).  Without that proviso the scan returns the key `''`
and nothing is evicted (see the counterexample). -/
theorem C3_set_eviction (α : Type) (c : MemoryCache α) (now : Nat)
    (key : String) (v : α) (ttl? : Option Nat) :
    (mapGet c.entries key ≠ none →
       (set c now key v ttl?).stats.evictions = c.stats.evictions ∧
       (set c now key v ttl?).entries.length = c.entries.length) ∧
    (mapGet c.entries key = none →
     c.entries.length ≥ c.config.maxSize →
     scanCanFind c now →
       ∃ p ∈ c.entries, minimalFor c.config.strategy p.2 c.entries ∧
         (∃ e' : CacheEntry α,
            (set c now key v ttl?).entries = mapSet (mapDelete c.entries p.1) key e') ∧
         (set c now key v ttl?).entries.length = c.entries.length ∧
         (set c now key v ttl?).stats.evictions = c.stats.evictions + 1) :=
  ⟨fun hpres => set_present_spec c now key v ttl? hpres,
   fun habs hfull hscan => set_full_fresh_spec c now key v ttl? habs hfull hscan⟩

/-- The single entry of the concrete witness cache for C3. -/
def c3entryA : CacheEntry Nat :=
  { value := 7, timestamp := 3, ttl := 3600000, accessCount := 0, lastAccessed := 3 }

/-- A concrete full lru cache (maxSize 1) whose entry was last touched at
time 3. -/
def c3cache : MemoryCache Nat :=
  { entries := [("a", c3entryA)],
    config := { ttl := 3600, maxSize := 1, strategy := .lru },
    stats := { hits := 0, misses := 0, size := 1, hitRate := 0, evictions := 0 } }

/-- Witness for C3: on the concrete full cache, `set` with a fresh key at
the later time 5 evicts the minimal entry. -/
theorem C3_set_eviction_witness :
    ∃ p ∈ c3cache.entries, minimalFor .lru p.2 c3cache.entries ∧
      (∃ e' : CacheEntry Nat,
        (set c3cache 5 "b" 9 none).entries =
          mapSet (mapDelete c3cache.entries p.1) "b" e') ∧
      (set c3cache 5 "b" 9 none).entries.length = c3cache.entries.length ∧
      (set c3cache 5 "b" 9 none).stats.evictions = c3cache.stats.evictions + 1 :=
  (C3_set_eviction Nat c3cache 5 "b" 9 none).2 (by decide) (by decide)
    ⟨("a", c3entryA), by decide, by decide⟩

/-- Counterexample for C3 as stated: a full lru cache (maxSize 1) whose
single entry was touched at the very millisecond of the `set` call.  The
scan finds no strictly older entry, returns `''`, and `delete('')`
removes nothing: afterwards both the old and the new key are stored and
nothing was evicted, contradicting "evicts exactly one existing entry". -/
theorem C3_counterexample :
    (set (set (emptyCache { ttl := 3600, maxSize := 1, strategy := .lru } :
          MemoryCache Nat) 5 "a" 0 none) 5 "b" 0 none).entries.length = 2 ∧
    mapGet (set (set (emptyCache { ttl := 3600, maxSize := 1, strategy := .lru } :
          MemoryCache Nat) 5 "a" 0 none) 5 "b" 0 none).entries "a" ≠ none ∧
    (set (emptyCache { ttl := 3600, maxSize := 1, strategy := .lru } :
          MemoryCache Nat) 5 "a" 0 none).entries.length =
      ({ ttl := 3600, maxSize := 1, strategy := .lru } : CacheConfig).maxSize := by
  refine ⟨by decide, ?_, by decide⟩
  decide

end Cache

namespace Cache

theorem mapSet_keys_nodup {β : Type} (l : List (String × β))
    (k : String) (e : β) (h : (l.map Prod.fst).Nodup) :
    ((mapSet l k e).map Prod.fst).Nodup := by
  by_cases hk : k ∈ l.map Prod.fst
  · rw [mapSet_keys_of_mem _ _ _ hk]
    exact h
  · rw [mapSet_keys_of_not_mem _ _ _ hk]
    rw [List.nodup_append]
    refine ⟨h, List.nodup_singleton k, fun a ha hb => ?_⟩
    have ha' : a = k := by simpa using hb
    subst ha'
    exact hk ha

theorem set_keys_nodup {α : Type} (c : MemoryCache α) (now : Nat) (key : String)
    (v : α) (ttl? : Option Nat) (h : (c.entries.map Prod.fst).Nodup) :
    (((set c now key v ttl?).entries).map Prod.fst).Nodup := by
  simp only [set]
  apply mapSet_keys_nodup
  split
  · unfold evict
    split
    · exact h
    · apply List.Nodup.sublist _ h
      exact (mapDelete_sublist _ _).map Prod.fst
  · exact h

/-- C5: storing a value with a nonzero TTL of `t` seconds records an entry
stamped with the insertion time and `t * 1000` milliseconds of life;
`get` called strictly after that returns `null`, removes the entry, and
counts a miss, while `get` within the TTL returns the stored value
unchanged and counts a hit. -/
theorem C5_ttl_expiry (α : Type) (c : MemoryCache α) (k : String) (v : α)
    (t now₀ now : Nat) (hnodup : (c.entries.map Prod.fst).Nodup) (ht : t ≠ 0)
    (c' : MemoryCache α) (hc' : c' = set c now₀ k v (some t)) :
    mapGet c'.entries k =
      some { value := v, timestamp := now₀, ttl := t * 1000,
             accessCount := 0, lastAccessed := now₀ } ∧
    ((t * 1000 : Int) < (now : Int) - (now₀ : Int) →
       (get c' now k).2 = none ∧
       mapGet (get c' now k).1.entries k = none ∧
       (get c' now k).1.stats.misses = c'.stats.misses + 1) ∧
    (¬ ((t * 1000 : Int) < (now : Int) - (now₀ : Int)) →
       (get c' now k).2 = some v ∧
       (get c' now k).1.stats.hits = c'.stats.hits + 1) := by
  have hget : mapGet c'.entries k =
      some { value := v, timestamp := now₀, ttl := t * 1000,
             accessCount := 0, lastAccessed := now₀ } := by
    rw [hc']
    simp only [set]
    rw [mapGet_mapSet_self]
    simp [ht]
  have hnodup' : (c'.entries.map Prod.fst).Nodup := by
    rw [hc']
    exact set_keys_nodup c now₀ k v (some t) hnodup
  refine ⟨hget, ?_, ?_⟩
  · intro hexp
    have hcond : ((now : Int) - ((now₀ : Nat) : Int) > ((t * 1000 : Nat) : Int)) := by
      push_cast
      omega
    constructor
    · simp only [get, hget]
      rw [if_pos (by exact_mod_cast hcond)]
    constructor
    · simp only [get, hget]
      rw [if_pos (by exact_mod_cast hcond)]
      exact mapGet_mapDelete_self _ _ hnodup'
    · simp only [get, hget]
      rw [if_pos (by exact_mod_cast hcond)]
      simp [updateHitRate]
  · intro hfresh
    have hcond : ¬ ((now : Int) - ((now₀ : Nat) : Int) > ((t * 1000 : Nat) : Int)) := by
      push_cast
      omega
    constructor
    · simp only [get, hget]
      rw [if_neg (by exact_mod_cast hcond)]
    · simp only [get, hget]
      rw [if_neg (by exact_mod_cast hcond)]
      simp [updateHitRate]

/-- The concrete cache of the C5 witness: an empty cache after one `set`
with a 1-second TTL at time 10. -/
def c5cache : MemoryCache Nat :=
  set (emptyCache { ttl := 3600, maxSize := 10, strategy := .lru }) 10 "a" 42 (some 1)

/-- Witness for C5 at concrete times: expired at 2000 (1990 ms elapsed),
alive at 1000 (990 ms elapsed). -/
theorem C5_ttl_expiry_witness :
    (mapGet c5cache.entries "a" =
      some { value := 42, timestamp := 10, ttl := 1000,
             accessCount := 0, lastAccessed := 10 }) ∧
    ((get c5cache 2000 "a").2 = none ∧
      mapGet (get c5cache 2000 "a").1.entries "a" = none ∧
      (get c5cache 2000 "a").1.stats.misses = c5cache.stats.misses + 1) ∧
    ((get c5cache 1000 "a").2 = some 42 ∧
      (get c5cache 1000 "a").1.stats.hits = c5cache.stats.hits + 1) := by
  have h2000 := C5_ttl_expiry Nat
    (emptyCache { ttl := 3600, maxSize := 10, strategy := .lru }) "a" 42 1 10 2000
    (by decide) (by decide) c5cache rfl
  have h1000 := C5_ttl_expiry Nat
    (emptyCache { ttl := 3600, maxSize := 10, strategy := .lru }) "a" 42 1 10 1000
    (by decide) (by decide) c5cache rfl
  exact ⟨h2000.1, h2000.2.1 (by decide), h1000.2.2 (by decide)⟩

end Cache

namespace Cache

theorem mapGet_mem {β : Type} (l : List (String × β)) (k : String)
    (e : β) (h : mapGet l k = some e) : (k, e) ∈ l := by
  induction l with
  | nil => simp [mapGet] at h
  | cons p rest ih =>
    obtain ⟨k', e'⟩ := p
    by_cases hk : k' = k
    · subst hk
      rw [mapGet, if_pos rfl] at h
      simp at h
      simp [h]
    · rw [mapGet, if_neg hk] at h
      exact List.mem_cons_of_mem _ (ih h)

/-- One cache operation of claim C8's "any sequence of set, get, delete,
and clear operations". -/
inductive CacheOp (α : Type) where
  | setOp (key : String) (value : α) (ttl : Option Nat)
  | getOp (key : String)
  | delOp (key : String)
  | clearOp

/-- Apply one timed operation to the cache. -/
def applyOp {α : Type} (c : MemoryCache α) : Nat × CacheOp α → MemoryCache α
  | (now, .setOp k v t) => set c now k v t
  | (now, .getOp k) => (get c now k).1
  | (_, .delOp k) => (deleteKey c k).1
  | (_, .clearOp) => clear c

/-- Run a timed operation sequence. -/
def run {α : Type} (c : MemoryCache α) (ops : List (Nat × CacheOp α)) :
    MemoryCache α :=
  ops.foldl applyOp c

theorem set_config {α : Type} (c : MemoryCache α) (now : Nat) (key : String)
    (v : α) (ttl? : Option Nat) : (set c now key v ttl?).config = c.config := by
  simp only [set]
  split
  · unfold evict
    split <;> rfl
  · rfl

theorem applyOp_config {α : Type} (c : MemoryCache α) (op : Nat × CacheOp α) :
    (applyOp c op).config = c.config := by
  obtain ⟨now, op⟩ := op
  cases op with
  | setOp k v t => exact set_config c now k v t
  | getOp k =>
      simp only [applyOp, get]
      split
      · rfl
      · split <;> rfl
  | delOp k => rfl
  | clearOp => rfl

theorem run_config {α : Type} (ops : List (Nat × CacheOp α)) :
    ∀ c : MemoryCache α, (run c ops).config = c.config := by
  induction ops with
  | nil => intro c; rfl
  | cons op rest ih =>
      intro c
      show (run (applyOp c op) rest).config = c.config
      rw [ih, applyOp_config]

/-- The C8 invariant: distinct keys, size within `maxSize`, and all entry
clocks no later than `t`. -/
def Inv {α : Type} (c : MemoryCache α) (t : Nat) : Prop :=
  (c.entries.map Prod.fst).Nodup ∧
  c.entries.length ≤ c.config.maxSize ∧
  ∀ p ∈ c.entries, p.2.lastAccessed ≤ t ∧ p.2.timestamp ≤ t

theorem set_entries_eq {α : Type} (c : MemoryCache α) (now : Nat) (key : String)
    (v : α) (ttl? : Option Nat) :
    (set c now key v ttl?).entries =
      mapSet (if c.entries.length ≥ c.config.maxSize ∧ (mapGet c.entries key).isNone
              then evict now c else c).entries key
        { value := v, timestamp := now,
          ttl := (match ttl? with
            | some t => if t ≠ 0 then t else c.config.ttl
            | none => c.config.ttl) * 1000,
          accessCount := 0, lastAccessed := now } := rfl

set_option maxRecDepth 4000 in
theorem inv_preserved {α : Type} (c : MemoryCache α) (t now : Nat)
    (op : CacheOp α) (hmax : 1 ≤ c.config.maxSize) (hinv : Inv c t)
    (hlt : t < now) : Inv (applyOp c (now, op)) now := by
  obtain ⟨hnodup, hlen, htimes⟩ := hinv
  unfold Inv
  rw [applyOp_config]
  cases op with
  | clearOp =>
      refine ⟨by simp [applyOp, clear], by simp [applyOp, clear], ?_⟩
      simp [applyOp, clear]
  | delOp k =>
      have hsub : ((deleteKey c k).1.entries).Sublist c.entries := mapDelete_sublist _ _
      refine ⟨List.Nodup.sublist (hsub.map Prod.fst) hnodup, ?_, ?_⟩
      · calc (deleteKey c k).1.entries.length ≤ c.entries.length := hsub.length_le
          _ ≤ c.config.maxSize := hlen
      · intro p hp
        have := htimes p (hsub.mem hp)
        omega
  | getOp k =>
      rcases hk : mapGet c.entries k with _ | e
      · have hE : (applyOp c (now, CacheOp.getOp k)).entries = c.entries := by
          simp [applyOp, get, hk]
        refine ⟨by rw [hE]; exact hnodup, by rw [hE]; exact hlen, ?_⟩
        rw [hE]
        intro p hp
        have := htimes p hp
        omega
      · by_cases hexp : ((now : Int) - (e.timestamp : Int) > (e.ttl : Int))
        · have hE : (applyOp c (now, CacheOp.getOp k)).entries = mapDelete c.entries k := by
            simp only [applyOp, get, hk]
            rw [if_pos hexp]
          have hsub : (mapDelete c.entries k).Sublist c.entries := mapDelete_sublist _ _
          refine ⟨?_, ?_, ?_⟩ <;> rw [hE]
          · exact List.Nodup.sublist (hsub.map Prod.fst) hnodup
          · calc (mapDelete c.entries k).length ≤ c.entries.length := hsub.length_le
              _ ≤ c.config.maxSize := hlen
          · intro p hp
            have := htimes p (hsub.mem hp)
            omega
        · have hE : (applyOp c (now, CacheOp.getOp k)).entries =
              mapSet c.entries k
                { e with accessCount := e.accessCount + 1, lastAccessed := now } := by
            simp only [applyOp, get, hk]
            rw [if_neg hexp]
          have hkmem : k ∈ c.entries.map Prod.fst := by
            by_contra hmem
            rw [(mapGet_eq_none_iff c.entries k).mpr hmem] at hk
            exact Option.noConfusion hk
          refine ⟨?_, ?_, ?_⟩ <;> rw [hE]
          · rw [mapSet_keys_of_mem _ _ _ hkmem]
            exact hnodup
          · rw [mapSet_length_of_mem _ _ _ hkmem]
            exact hlen
          · intro p hp
            rcases mapSet_mem _ _ _ p hp with rfl | hp'
            · have := (htimes (k, e) (mapGet_mem _ _ _ hk)).2
              exact ⟨le_refl now, by simpa using Nat.le_of_lt (lt_of_le_of_lt this hlt)⟩
            · have := htimes p hp'
              omega
  | setOp k v tt =>
      by_cases hcond : c.entries.length ≥ c.config.maxSize ∧ (mapGet c.entries k).isNone
      · -- full cache, fresh key: the eviction branch runs
        obtain ⟨hfull, hnone⟩ := hcond
        have habs : mapGet c.entries k = none := by
          rcases h : mapGet c.entries k with _ | e
          · rfl
          · rw [h] at hnone
            simp at hnone
        have hne : c.entries ≠ [] := by
          intro h0
          rw [h0] at hfull
          simp at hfull
          omega
        obtain ⟨p0, hp0⟩ := List.exists_mem_of_ne_nil _ hne
        have hscan : scanCanFind c now := by
          unfold scanCanFind
          have hplt := htimes p0 hp0
          rcases c.config.strategy with _ | _ | _
          · exact ⟨p0, hp0, by omega⟩
          · exact ⟨p0, hp0, by omega⟩
          · exact hne
        obtain ⟨q, hq, -, ⟨e', he'⟩, hlen', -⟩ :=
          set_full_fresh_spec c now k v tt habs hfull hscan
        refine ⟨set_keys_nodup c now k v tt hnodup, ?_, ?_⟩
        · show (set c now k v tt).entries.length ≤ c.config.maxSize
          rw [hlen']
          exact hlen
        · show ∀ p ∈ (set c now k v tt).entries, p.2.lastAccessed ≤ now ∧ p.2.timestamp ≤ now
          rw [set_entries_eq]
          intro p hp
          rcases mapSet_mem _ _ _ p hp with rfl | hp'
          · exact ⟨le_refl now, le_refl now⟩
          · have hifE :
                (if c.entries.length ≥ c.config.maxSize ∧ (mapGet c.entries k).isNone
                 then evict now c else c) = evict now c :=
              if_pos ⟨hfull, by simp [habs]⟩
            rw [hifE] at hp'
            have hsubE : (evict now c).entries.Sublist c.entries := by
              unfold evict
              split
              · exact List.Sublist.refl _
              · exact mapDelete_sublist _ _
            have := htimes p (hsubE.mem hp')
            omega
      · -- no eviction branch
        have hifE2 :
            (if c.entries.length ≥ c.config.maxSize ∧ (mapGet c.entries k).isNone
             then evict now c else c).entries = c.entries := by
          rw [if_neg hcond]
        refine ⟨set_keys_nodup c now k v tt hnodup, ?_, ?_⟩
        · show (set c now k v tt).entries.length ≤ c.config.maxSize
          rw [set_entries_eq, hifE2]
          by_cases hk : k ∈ c.entries.map Prod.fst
          · rw [mapSet_length_of_mem _ _ _ hk]
            exact hlen
          · rw [mapSet_length_of_not_mem _ _ _ hk]
            have hnone : (mapGet c.entries k).isNone := by
              rw [(mapGet_eq_none_iff c.entries k).mpr hk]
              rfl
            have : ¬ c.entries.length ≥ c.config.maxSize := fun hf => hcond ⟨hf, hnone⟩
            omega
        · show ∀ p ∈ (set c now k v tt).entries, p.2.lastAccessed ≤ now ∧ p.2.timestamp ≤ now
          rw [set_entries_eq, hifE2]
          intro p hp
          rcases mapSet_mem _ _ _ p hp with rfl | hp'
          · exact ⟨le_refl now, le_refl now⟩
          · have := htimes p hp'
            omega

theorem run_inv {α : Type} (ops : List (Nat × CacheOp α)) :
    ∀ (c : MemoryCache α) (t : Nat), 1 ≤ c.config.maxSize → Inv c t →
      List.Chain' (· < ·) (t :: ops.map Prod.fst) →
      ∃ t', Inv (run c ops) t' := by
  induction ops with
  | nil => intro c t _ hinv _; exact ⟨t, hinv⟩
  | cons op rest ih =>
      intro c t hmax hinv hchain
      obtain ⟨now, o⟩ := op
      have hlt : t < now := by
        have := List.chain'_cons.mp hchain
        exact this.1
      have hchain' : List.Chain' (· < ·) (now :: rest.map Prod.fst) := by
        have := List.chain'_cons.mp hchain
        exact this.2
      have hmax' : 1 ≤ (applyOp c (now, o)).config.maxSize := by
        rw [applyOp_config]
        exact hmax
      exact ih (applyOp c (now, o)) now hmax'
        (inv_preserved c t now o hmax hinv hlt) hchain'

end Cache

namespace Cache

/-- Counterexample for C8 as stated: two `set` calls at the same
millisecond on an lru cache with maxSize 1 leave 2 entries stored — the
eviction scan finds no entry strictly older than `Date.now()`, returns
`''`, and `delete('')` removes nothing, so the cache grows past maxSize. -/
theorem C8_counterexample :
    (run (emptyCache { ttl := 3600, maxSize := 1, strategy := .lru } :
        MemoryCache Nat)
      [(5, .setOp "a" 0 none), (5, .setOp "b" 0 none)]).entries.length = 2 ∧
    ({ ttl := 3600, maxSize := 1, strategy := .lru } : CacheConfig).maxSize = 1 := by
  constructor
  · decide
  · rfl

/-- C8 (amended): starting from an empty cache with maxSize ≥ 1, any
sequence of timed set/get/delete/clear operations at strictly increasing
positive times keeps the number of stored entries within maxSize.  (The
time hypothesis is needed: two `set` calls in the same millisecond can
overfill the cache, as the counterexample shows.) -/
theorem C8_size_bound (α : Type) (cfg : CacheConfig) (hmax : 1 ≤ cfg.maxSize)
    (ops : List (Nat × CacheOp α))
    (hchain : List.Chain' (· < ·) (0 :: ops.map Prod.fst)) :
    (run (emptyCache cfg : MemoryCache α) ops).entries.length ≤ cfg.maxSize := by
  have h0 : Inv (emptyCache cfg : MemoryCache α) 0 := by
    refine ⟨by simp [emptyCache], by simp [emptyCache], ?_⟩
    intro p hp
    simp [emptyCache] at hp
  obtain ⟨t', h⟩ := run_inv ops (emptyCache cfg) 0 hmax h0 hchain
  have hlen := h.2.1
  rw [run_config] at hlen
  exact hlen

/-- Witness for C8: two inserts at increasing times on a maxSize-1 cache
stay within the bound. -/
theorem C8_size_bound_witness :
    (run (emptyCache { ttl := 3600, maxSize := 1, strategy := .lru } :
        MemoryCache Nat)
      [(1, .setOp "a" 0 none), (2, .setOp "b" 0 none)]).entries.length ≤
      ({ ttl := 3600, maxSize := 1, strategy := .lru } : CacheConfig).maxSize :=
  C8_size_bound Nat { ttl := 3600, maxSize := 1, strategy := .lru } (by decide)
    [(1, .setOp "a" 0 none), (2, .setOp "b" 0 none)]
    (by simp [List.chain'_cons])

end Cache

namespace RateLimit

open Cache (mapGet mapSet)

/-- One record of `RateLimitStore` (src/src/lib/rate-limiter.ts). -/
structure ClientEntry where
  count : Nat
  resetTime : Nat
deriving DecidableEq, Repr

/-- The `RateLimiter` object: the plain-object store is an association
list keyed by client id. -/
structure RateLimiter where
  store : List (String × ClientEntry)
  maxRequests : Nat
  windowMs : Nat
deriving DecidableEq, Repr

/-- The record returned by `RateLimiter.check`. -/
structure CheckResult where
  allowed : Bool
  remaining : Nat
  resetTime : Nat
  retryAfter : Option Nat
deriving DecidableEq, Repr

/-- `RateLimiter.check` (src/src/lib/rate-limiter.ts, lines 43-73) at time
`now` for an already-resolved client id: reinitialise the entry when
absent or when `resetTime < now`, increment the count, and allow iff
`count <= maxRequests`. -/
def check (rl : RateLimiter) (clientId : String) (now : Nat) :
    RateLimiter × CheckResult :=
  let entry0 :=
    match mapGet rl.store clientId with
    | none => { count := 0, resetTime := now + rl.windowMs : ClientEntry }
    | some e =>
        if e.resetTime < now then
          { count := 0, resetTime := now + rl.windowMs }
        else e
  let entry : ClientEntry := { entry0 with count := entry0.count + 1 }
  let remaining := rl.maxRequests - entry.count
  let allowed := entry.count ≤ rl.maxRequests
  let retryAfter :=
    if entry.count ≤ rl.maxRequests then none
    else some ((entry.resetTime - now + 999) / 1000)
  ({ rl with store := mapSet rl.store clientId entry },
   { allowed := allowed, remaining := remaining,
     resetTime := entry.resetTime, retryAfter := retryAfter })

/-- Run `check` for one client at each time of the trace, collecting the
`allowed` flags. -/
def runChecks (rl : RateLimiter) (clientId : String) :
    List Nat → RateLimiter × List Bool
  | [] => (rl, [])
  | t :: rest =>
      let step := check rl clientId t
      let tail := runChecks step.1 clientId rest
      (tail.1, step.2.allowed :: tail.2)

/-- The sliding-window reading of claim C4, taken from the spec's words:
the number of requests of the trace that arrived within the `windowMs`
milliseconds immediately preceding (and including) the call at `now`. -/
def slidingCount (arrivals : List Nat) (now windowMs : Nat) : Nat :=
  (arrivals.filter
    (fun t => decide ((now : Int) - (windowMs : Int) < (t : Int) ∧ t ≤ now))).length

/-- Anchors of the fixed windows the code actually implements: a window
opens at the first request after the previously stored window expired
(`resetTime < now`), i.e. when the previous anchor plus `windowMs` is
strictly before the request. -/
def fixedAnchorsAux (w : Nat) (a : Nat) : List Nat → List Nat
  | [] => []
  | t :: rest =>
      let a' := if a + w < t then t else a
      a' :: fixedAnchorsAux w a' rest

/-- Anchor of each request of a trace (first request anchors the first
window). -/
def fixedAnchors (w : Nat) : List Nat → List Nat
  | [] => []
  | t :: rest => t :: fixedAnchorsAux w t rest

/-- The fixed-window admission spec: request `i` is allowed iff at most
`maxR` requests of the trace so far (including it) share its window
anchor. -/
def fixedWindowAllowedSpec (w maxR : Nat) (ts : List Nat) : List Bool :=
  (List.range ts.length).map (fun i =>
    decide ((((fixedAnchors w ts).take (i + 1)).filter
      (fun a => a = (fixedAnchors w ts).getD i 0)).length ≤ maxR))

/-- The stateful recursion the limiter follows: carry the current window
anchor and count. -/
def fixedAllowedAux (w maxR : Nat) (a n : Nat) : List Nat → List Bool
  | [] => []
  | t :: rest =>
      let a' := if a + w < t then t else a
      let n' := (if a + w < t then 0 else n) + 1
      decide (n' ≤ maxR) :: fixedAllowedAux w maxR a' n' rest

end RateLimit

namespace RateLimit

theorem fixedAnchorsAux_length (w : Nat) :
    ∀ (ts : List Nat) (a : Nat), (fixedAnchorsAux w a ts).length = ts.length := by
  intro ts
  induction ts with
  | nil => intro a; rfl
  | cons t rest ih =>
      intro a
      simp only [fixedAnchorsAux, List.length_cons, ih]

theorem fixedAnchorsAux_getD_ge (w : Nat) :
    ∀ (ts : List Nat) (a : Nat) (i : Nat), i < ts.length →
      a ≤ (fixedAnchorsAux w a ts).getD i 0 := by
  intro ts
  induction ts with
  | nil => intro a i hi; simp at hi
  | cons t rest ih =>
      intro a i hi
      have ha' : a ≤ (if a + w < t then t else a) := by
        split
        · omega
        · exact le_refl a
      cases i with
      | zero => simpa [fixedAnchorsAux] using ha'
      | succ j =>
          simp only [fixedAnchorsAux, List.getD_cons_succ]
          refine le_trans ha' (ih _ j ?_)
          simpa using Nat.lt_of_succ_lt_succ hi

theorem fixedAllowedAux_eq_count (w maxR : Nat) :
    ∀ (ts : List Nat) (a n : Nat),
      fixedAllowedAux w maxR a n ts =
        (List.range ts.length).map (fun i =>
          decide ((if (fixedAnchorsAux w a ts).getD i 0 = a then n else 0) +
            (((fixedAnchorsAux w a ts).take (i + 1)).filter
              (fun x => x = (fixedAnchorsAux w a ts).getD i 0)).length ≤ maxR)) := by
  intro ts
  induction ts with
  | nil => intro a n; rfl
  | cons t rest ih =>
      intro a n
      simp only [fixedAllowedAux, fixedAnchorsAux, List.length_cons,
        List.range_succ_eq_map, List.map_cons, List.map_map]
      congr 1
      · -- head: the current request's window count
        simp only [List.getD_cons_zero, List.take_succ_cons, List.take_zero,
          List.filter_cons, decide_eq_true_eq, apply_ite List.length,
          List.length_cons, List.length_nil, List.filter_nil]
        rw [decide_eq_decide]
        by_cases hr : a + w < t
        · simp only [if_pos hr]
          split_ifs <;> omega
        · simp only [if_neg hr]
          split_ifs <;> omega
      · -- tail: shift the index by one
        rw [ih]
        apply List.map_congr_left
        intro i hi
        have hi' : i < rest.length := List.mem_range.mp hi
        simp only [Function.comp, List.getD_cons_succ, List.take_succ_cons,
          List.filter_cons, decide_eq_true_eq, apply_ite List.length,
          List.length_cons]
        rw [decide_eq_decide]
        by_cases hr : a + w < t
        · simp only [if_pos hr]
          have hge := fixedAnchorsAux_getD_ge w rest t i hi'
          split_ifs <;> omega
        · simp only [if_neg hr]
          split_ifs <;> omega

end RateLimit

namespace RateLimit

open Cache (mapGet mapSet mapGet_mapSet_self)

theorem runChecks_eq_fixedAux (cid : String) :
    ∀ (ts : List Nat) (rl : RateLimiter) (a n : Nat),
      mapGet rl.store cid = some { count := n, resetTime := a + rl.windowMs } →
      (runChecks rl cid ts).2 = fixedAllowedAux rl.windowMs rl.maxRequests a n ts := by
  intro ts
  induction ts with
  | nil => intro rl a n _; rfl
  | cons t rest ih =>
      intro rl a n hstore
      by_cases hr : a + rl.windowMs < t
      · have h1 : (check rl cid t).1 =
            { rl with store := mapSet rl.store cid { count := 1, resetTime := t + rl.windowMs } } := by
          simp only [check, hstore]
          rw [if_pos hr]
        have h2 : (check rl cid t).2.allowed = decide (1 ≤ rl.maxRequests) := by
          simp only [check, hstore]
          rw [if_pos hr]
        show (check rl cid t).2.allowed ::
            (runChecks (check rl cid t).1 cid rest).2 = _
        rw [h1, h2]
        have htail := ih
          { rl with store := mapSet rl.store cid { count := 1, resetTime := t + rl.windowMs } }
          t 1 (by simpa using mapGet_mapSet_self rl.store cid _)
        rw [htail]
        show _ = fixedAllowedAux rl.windowMs rl.maxRequests a n (t :: rest)
        simp only [fixedAllowedAux]
        rw [if_pos hr, if_pos hr]
      · have h1 : (check rl cid t).1 =
            { rl with store := mapSet rl.store cid { count := n + 1, resetTime := a + rl.windowMs } } := by
          simp only [check, hstore]
          rw [if_neg hr]
        have h2 : (check rl cid t).2.allowed = decide (n + 1 ≤ rl.maxRequests) := by
          simp only [check, hstore]
          rw [if_neg hr]
        show (check rl cid t).2.allowed ::
            (runChecks (check rl cid t).1 cid rest).2 = _
        rw [h1, h2]
        have htail := ih
          { rl with store := mapSet rl.store cid { count := n + 1, resetTime := a + rl.windowMs } }
          a (n + 1) (by simpa using mapGet_mapSet_self rl.store cid _)
        rw [htail]
        show _ = fixedAllowedAux rl.windowMs rl.maxRequests a n (t :: rest)
        simp only [fixedAllowedAux]
        rw [if_neg hr, if_neg hr]

end RateLimit

namespace RateLimit

open Cache (mapGet mapSet mapGet_mapSet_self)

/-- Counterexample for C4 as stated: with `maxRequests = 1` and
`windowMs = 10`, requests at times 0, 9 and 12 produce
[allowed, rejected, allowed], yet two requests (9 and 12) fall within the
10 ms immediately preceding the call at 12 — a sliding window would
reject it.  The limiter is a fixed window anchored at the first request
after expiry, not a sliding one. -/
theorem C4_counterexample :
    (runChecks { store := [], maxRequests := 1, windowMs := 10 } "client"
      [0, 9, 12]).2 = [true, false, true] ∧
    slidingCount [0, 9, 12] 12 10 = 2 ∧
    ¬ (slidingCount [0, 9, 12] 12 10 ≤ 1) := by
  refine ⟨by decide, by decide, by decide⟩

/-- C4 (amended): for every client whose id is not yet in the store, the
limiter admits requests by fixed windows: request `i` of the client's
trace is allowed iff at most `maxRequests` requests so far (including it)
share its window anchor, where a window is anchored at the first request
arriving strictly after the previously stored window expired
(`resetTime < now`).  This is a fixed window anchored per client, not a
sliding window. -/
theorem C4_fixed_window (rl : RateLimiter) (cid : String) (ts : List Nat)
    (hnone : mapGet rl.store cid = none) :
    (runChecks rl cid ts).2 =
      fixedWindowAllowedSpec rl.windowMs rl.maxRequests ts := by
  cases ts with
  | nil => rfl
  | cons t rest =>
      have h1 : (check rl cid t).1 =
          { rl with store := mapSet rl.store cid { count := 1, resetTime := t + rl.windowMs } } := by
        simp only [check, hnone]
      have h2 : (check rl cid t).2.allowed = decide (1 ≤ rl.maxRequests) := by
        simp only [check, hnone]
      show (check rl cid t).2.allowed ::
          (runChecks (check rl cid t).1 cid rest).2 = _
      rw [h1, h2]
      have htail := runChecks_eq_fixedAux cid rest
        { rl with store := mapSet rl.store cid { count := 1, resetTime := t + rl.windowMs } }
        t 1 (by simpa using mapGet_mapSet_self rl.store cid _)
      rw [htail]
      show _ = fixedWindowAllowedSpec rl.windowMs rl.maxRequests (t :: rest)
      rw [fixedAllowedAux_eq_count]
      unfold fixedWindowAllowedSpec fixedAnchors
      simp only [List.length_cons, List.range_succ_eq_map, List.map_cons,
        List.map_map]
      congr 1
      · simp only [List.getD_cons_zero, List.take_succ_cons, List.take_zero,
          List.filter_cons, decide_eq_true_eq, apply_ite List.length,
          List.length_cons, List.length_nil, List.filter_nil]
        rw [decide_eq_decide]
        split_ifs <;> omega
      · apply List.map_congr_left
        intro i hi
        have hi' : i < rest.length := List.mem_range.mp hi
        simp only [Function.comp, List.getD_cons_succ, List.take_succ_cons,
          List.filter_cons, decide_eq_true_eq, apply_ite List.length,
          List.length_cons]
        rw [decide_eq_decide]
        have hge := fixedAnchorsAux_getD_ge rl.windowMs rest t i hi'
        split_ifs <;> omega

/-- Witness for C4: the amended fixed-window characterisation evaluated
on the counterexample trace. -/
theorem C4_fixed_window_witness :
    (runChecks { store := [], maxRequests := 1, windowMs := 10 } "client"
      [0, 9, 12]).2 = fixedWindowAllowedSpec 10 1 [0, 9, 12] :=
  C4_fixed_window { store := [], maxRequests := 1, windowMs := 10 } "client"
    [0, 9, 12] rfl

end RateLimit

namespace JsStr

/-- The whitespace class of JavaScript (`\s`, `trim`, `parseInt`
skipping): ASCII whitespace plus the no-break space. -/
def isJsWhitespace (c : Char) : Bool :=
  c = ' ' ∨ c = '\t' ∨ c = '\n' ∨ c = '\r' ∨ c = '\x0b' ∨ c = '\x0c' ∨ c = '\u00A0'

/-- Remove the first occurrence of `pat` from the character list, as
`String.prototype.replace(pat, '')` does for a string pattern. -/
def removeFirstSub : List Char → List Char → List Char
  | [], _ => []
  | c :: rest, pat =>
      if pat.isPrefixOf (c :: rest) then (c :: rest).drop pat.length
      else c :: removeFirstSub rest pat

/-- `s.replace(pat, '')` for a plain-string pattern: drop the first
occurrence. -/
def replaceFirst (s pat : String) : String :=
  ⟨removeFirstSub s.data pat.data⟩

def isDecDigit (c : Char) : Bool := '0' ≤ c && c ≤ '9'

def isHexDigit (c : Char) : Bool :=
  ('0' ≤ c && c ≤ '9') || ('a' ≤ c && c ≤ 'f') || ('A' ≤ c && c ≤ 'F')

def hexVal (c : Char) : Nat :=
  if '0' ≤ c && c ≤ '9' then c.toNat - '0'.toNat
  else if 'a' ≤ c && c ≤ 'f' then c.toNat - 'a'.toNat + 10
  else c.toNat - 'A'.toNat + 10

def parseDecimal (sign : Int) (cs : List Char) : Option Int :=
  let ds := cs.takeWhile isDecDigit
  if ds = [] then none
  else some (sign * (ds.foldl (fun a c => a * 10 + (c.toNat - '0'.toNat)) 0 : Nat))

/-- `parseInt(s)` (radix 10 or auto-detected 0x hex): skip leading
whitespace, optional sign, longest digit run; `none` models `NaN`. -/
def parseIntJS (s : String) : Option Int :=
  let cs := s.data.dropWhile isJsWhitespace
  let signed : Int × List Char :=
    match cs with
    | '-' :: r => (-1, r)
    | '+' :: r => (1, r)
    | _ => (1, cs)
  match signed.2 with
  | '0' :: x :: r =>
      if x = 'x' ∨ x = 'X' then
        let h := r.takeWhile isHexDigit
        if h = [] then none
        else some (signed.1 * (h.foldl (fun a c => a * 16 + hexVal c) 0 : Nat))
      else parseDecimal signed.1 signed.2
  | _ => parseDecimal signed.1 signed.2

/-- JS `trim()`: strip the whitespace class from both ends. -/
def jsTrim (s : String) : String :=
  ⟨((s.data.dropWhile isJsWhitespace).reverse.dropWhile isJsWhitespace).reverse⟩

end JsStr

namespace Routes

open JsStr (replaceFirst parseIntJS)

/-- A thrown JavaScript error, abstracted to its message. -/
structure JsError where
  message : String
deriving DecidableEq, Repr

/-- One `PerformanceMetric` sample as used by the metrics endpoint. -/
structure Sample where
  value : Int
  timestamp : Nat
  tags : Option (List (String × String))
deriving DecidableEq, Repr

/-- An alert record; only its timestamp matters to the endpoint. -/
structure AlertRec where
  timestamp : Nat
  payload : String
deriving DecidableEq, Repr

/-- `process.uptime() / process.memoryUsage() / ...` snapshot. -/
structure SystemInfo where
  uptime : Int
  heapUsed : Int
  heapTotal : Int
  rss : Int
  version : String
  platform : String
deriving DecidableEq, Repr

/-- The in-memory state the GET handler reads: collector metrics and
alerts, opaque summary payloads, and the health check, which (being an
awaited call) may throw. -/
structure CollectorState where
  metrics : List (String × List Sample)
  activeAlerts : List AlertRec
  allAlerts : List AlertRec
  summaryPerformance : String
  cacheStats : String
  health : Except JsError String
  system : SystemInfo

/-- The authentication inputs of `verifyAuth`. -/
structure AuthInfo where
  publicMetrics : Bool
  authHeader : Option String
  metricsToken : String
deriving DecidableEq, Repr

/-- `verifyAuth` (src/src/app/api/metrics/route.ts): public metrics allow
everything; otherwise the bearer token must equal `METRICS_TOKEN`.  A
missing header never matches. -/
def verifyAuth (a : AuthInfo) : Bool :=
  if a.publicMetrics then true
  else (a.authHeader.map (fun h => replaceFirst h "Bearer ")) == some a.metricsToken

/-- The query-string inputs of the GET handler. -/
structure MetricsRequest where
  auth : AuthInfo
  format : Option String
  metricParam : Option String
  timeRangeParam : Option String
  alertsParam : Option String
  summaryParam : Option String
deriving DecidableEq, Repr

/-- `searchParams.get('format') || 'json'`: `null` and `''` both fall back. -/
def resolvedFormat (req : MetricsRequest) : String :=
  match req.format with
  | some f => if f ≠ "" then f else "json"
  | none => "json"

/-- `parseInt(searchParams.get('timeRange') || '3600000')`; `none` models
`NaN`. -/
def resolvedTimeRange (req : MetricsRequest) : Option Int :=
  parseIntJS (match req.timeRangeParam with
    | some s => if s ≠ "" then s else "3600000"
    | none => "3600000")

/-- `timestamp > cutoff` where `cutoff` may be `NaN` (any comparison with
`NaN` is false). -/
def tsAfter (ts : Nat) (cutoff : Option Int) : Bool :=
  match cutoff with
  | none => false
  | some c => (ts : Int) > c

/-- The `metricsData` object: one filtered metric when the `metric` query
parameter is a nonempty string, otherwise every metric filtered. -/
def getMetricsData (st : CollectorState) (metricParam : Option String)
    (cutoff : Option Int) : List (String × List Sample) :=
  match metricParam with
  | some m =>
      if m ≠ "" then
        [(m, ((Cache.mapGet st.metrics m).getD []).filter (fun s => tsAfter s.timestamp cutoff))]
      else
        st.metrics.map (fun p => (p.1, p.2.filter (fun s => tsAfter s.timestamp cutoff)))
  | none =>
      st.metrics.map (fun p => (p.1, p.2.filter (fun s => tsAfter s.timestamp cutoff)))

/-- The `summary` object of the response. -/
structure SummaryData where
  performance : String
  cacheStats : String
  health : String
  system : SystemInfo
deriving DecidableEq, Repr

/-- The `responseData` object assembled by the GET handler. -/
structure ResponseData where
  timestamp : Nat
  timeRange : Option Int
  metrics : List (String × List Sample)
  alerts : Option (List AlertRec × List AlertRec)
  summary : Option SummaryData
deriving DecidableEq, Repr

/-- `metricName.replace(/[^a-zA-Z0-9_]/g, '_')`. -/
def sanitizeName (s : String) : String :=
  ⟨s.data.map (fun c =>
    if ('a' ≤ c && c ≤ 'z') || ('A' ≤ c && c ≤ 'Z') || ('0' ≤ c && c ≤ '9') || c = '_'
    then c else '_')⟩

/-- The `{k="v",...}` label block; absent tags produce no block. -/
def labelsFor (tags : Option (List (String × String))) : String :=
  match tags with
  | none => ""
  | some ts =>
      "\x7b" ++ String.intercalate ","
        (ts.map (fun p => p.1 ++ "=\"" ++ p.2 ++ "\"")) ++ "\x7d"

/-- The exposition line of one metric's latest sample. -/
def metricLine (name : String) (latest : Sample) : String :=
  "app_" ++ sanitizeName name ++ labelsFor latest.tags ++ " " ++
    toString latest.value ++ " " ++ toString latest.timestamp

/-- `convertToPrometheus` (src/src/app/api/metrics/route.ts, lines
254-294) as the list of lines it pushes: header, one line per nonempty
metric built from its last (latest) sample, system lines when a summary
is present, and the active-alert count when alerts are present. -/
def convertToPrometheusLines (data : ResponseData) (now : Nat) : List String :=
  ["# HELP app_metrics Application performance metrics",
   "# TYPE app_metrics gauge"]
  ++ data.metrics.filterMap (fun p =>
      match p.2.getLast? with
      | none => none
      | some latest => some (metricLine p.1 latest))
  ++ (match data.summary with
      | none => []
      | some s =>
          ["app_uptime_seconds " ++ toString s.system.uptime ++ " " ++ toString now,
           "app_memory_heap_used_bytes " ++ toString s.system.heapUsed ++ " " ++ toString now,
           "app_memory_heap_total_bytes " ++ toString s.system.heapTotal ++ " " ++ toString now,
           "app_memory_rss_bytes " ++ toString s.system.rss ++ " " ++ toString now])
  ++ (match data.alerts with
      | none => []
      | some al =>
          ["app_active_alerts_total " ++ toString al.1.length ++ " " ++ toString now])

/-- `lines.join('\n') + '\n'`. -/
def convertToPrometheus (data : ResponseData) (now : Nat) : String :=
  String.intercalate "\n" (convertToPrometheusLines data now) ++ "\n"

/-- The bodies the GET handler can answer with. -/
inductive MetricsBody where
  | unauthorized
  | prometheus (text : String)
  | json (data : ResponseData)
  | serverError (timestamp : Nat)
deriving DecidableEq, Repr

/-- An HTTP response of the metrics GET route. -/
structure MetricsResponse where
  status : Nat
  contentType : String
  body : MetricsBody
deriving DecidableEq, Repr

/-- The `responseData` the GET handler builds once authenticated and once
the awaited health check succeeded. -/
def buildResponseData (st : CollectorState) (req : MetricsRequest)
    (now : Nat) (health : Option String) : ResponseData :=
  let timeRange := resolvedTimeRange req
  let cutoff := timeRange.map (fun tr => (now : Int) - tr)
  { timestamp := now,
    timeRange := timeRange,
    metrics := getMetricsData st req.metricParam cutoff,
    alerts :=
      if req.alertsParam ≠ some "false" then
        some (st.activeAlerts, st.allAlerts.filter (fun a => tsAfter a.timestamp cutoff))
      else none,
    summary :=
      match health with
      | some h => some
          { performance := st.summaryPerformance, cacheStats := st.cacheStats,
            health := h, system := st.system }
      | none => none }

/-- The awaited `errorMonitor.getHealthStatus()` call, performed only
when the summary is requested; it is the one step of the GET body that
can throw. -/
def healthFetch (st : CollectorState) (req : MetricsRequest) :
    Except JsError (Option String) :=
  if req.summaryParam ≠ some "false" then
    match st.health with
    | .error e => .error e
    | .ok h => .ok (some h)
  else .ok none

/-- The format dispatch at the end of the GET handler: Prometheus text
for `format=prometheus`, JSON otherwise. -/
def formatResponse (req : MetricsRequest) (now : Nat) (d : ResponseData) :
    MetricsResponse :=
  if resolvedFormat req = "prometheus" then
    { status := 200, contentType := "text/plain; charset=utf-8",
      body := .prometheus (convertToPrometheus d now) }
  else
    { status := 200, contentType := "application/json", body := .json d }

/-- The body of the GET handler's `try` block: auth, the awaited health
fetch, assembling `responseData`, then the format dispatch. -/
def getMetricsBody (st : CollectorState) (req : MetricsRequest) (now : Nat) :
    Except JsError MetricsResponse :=
  if verifyAuth req.auth = false then
    .ok { status := 401, contentType := "application/json", body := .unauthorized }
  else do
    let health? ← healthFetch st req
    .ok (formatResponse req now (buildResponseData st req now health?))

/-- The GET handler: the `try` body wrapped in the `catch` that answers
HTTP 500 with a JSON error payload. -/
def handleMetricsGet (st : CollectorState) (req : MetricsRequest) (now : Nat) :
    MetricsResponse :=
  match getMetricsBody st req now with
  | .ok r => r
  | .error _ =>
      { status := 500, contentType := "application/json", body := .serverError now }

end Routes

namespace Routes

open JsStr (replaceFirst)

/-- The parsed JSON body of a POST /api/metrics request; fields may be
missing (`none`) and `value` is `none` whenever it is not a number. -/
structure PostPayload where
  name : Option String
  value : Option Int
  unit : Option String
  tags : Option (List (String × String))
deriving DecidableEq, Repr

/-- A POST request: auth inputs plus `request.json()`, which may throw. -/
structure PostRequest where
  auth : AuthInfo
  bodyJson : Except JsError PostPayload

/-- Bodies of the POST handler. -/
inductive PostBody where
  | unauthorized
  | invalidData
  | success (name : String) (value : Int) (unit : String)
      (tags : Option (List (String × String))) (timestamp : Nat)
  | failedAdd
deriving DecidableEq, Repr

structure PostResponse where
  status : Nat
  contentType : String
  body : PostBody
deriving DecidableEq, Repr

/-- `!name || typeof value !== 'number' || !unit` — a missing or empty
name/unit, or a non-number value, is invalid. -/
def invalidMetricData (p : PostPayload) : Bool :=
  (match p.name with | none => true | some s => s = "") ||
  (match p.value with | none => true | some _ => false) ||
  (match p.unit with | none => true | some s => s = "")

/-- The `try` body of the POST handler: auth, `await request.json()`
(which may throw), validation, then success. -/
def postMetricsBody (req : PostRequest) (now : Nat) : Except JsError PostResponse :=
  if verifyAuth req.auth = false then
    .ok { status := 401, contentType := "application/json", body := .unauthorized }
  else do
    let body ← req.bodyJson
    if invalidMetricData body then
      .ok { status := 400, contentType := "application/json", body := .invalidData }
    else
      .ok { status := 200, contentType := "application/json",
            body := .success (body.name.getD "") (body.value.getD 0)
              (body.unit.getD "") body.tags now }

/-- The POST handler with its catch. -/
def handleMetricsPost (req : PostRequest) (now : Nat) : PostResponse :=
  match postMetricsBody req now with
  | .ok r => r
  | .error _ =>
      { status := 500, contentType := "application/json", body := .failedAdd }

/-- A DELETE request: auth plus the `metric` query parameter, and the
`cacheManager.clearAll()` effect, which may throw. -/
structure DeleteRequest where
  auth : AuthInfo
  metricParam : Option String
  clearAll : Except JsError Unit

inductive DeleteBody where
  | unauthorized
  | success (action : String)
  | failedCleanup
deriving DecidableEq, Repr

structure DeleteResponse where
  status : Nat
  contentType : String
  body : DeleteBody
deriving DecidableEq, Repr

/-- The `try` body of the DELETE handler: with a truthy `metric` the
request is only logged; otherwise the caches are cleared (an effect that
may throw). -/
def deleteMetricsBody (req : DeleteRequest) : Except JsError DeleteResponse :=
  if verifyAuth req.auth = false then
    .ok { status := 401, contentType := "application/json", body := .unauthorized }
  else do
    let truthyMetric : Bool := match req.metricParam with
      | some m => m != ""
      | none => false
    if truthyMetric then
      pure ()
    else
      req.clearAll
    .ok { status := 200, contentType := "application/json",
          body := .success (match req.metricParam with
            | some m => if m ≠ "" then "Cleared metric: " ++ m else "Cleared cache"
            | none => "Cleared cache") }

/-- The DELETE handler with its catch. -/
def handleMetricsDelete (req : DeleteRequest) : DeleteResponse :=
  match deleteMetricsBody req with
  | .ok r => r
  | .error _ =>
      { status := 500, contentType := "application/json", body := .failedCleanup }

/-- The three health states of `errorMonitor.getHealthStatus()`. -/
inductive HealthState where
  | healthy | degraded | unhealthy
deriving DecidableEq, Repr

/-- A health status report. -/
structure HealthStatus where
  state : HealthState
  uptime : Nat
  version : String
deriving DecidableEq, Repr

/-- Inputs of `verifyHealthCheckToken` (src/src/app/api/health-check/
route.ts): bearer header or `token` query parameter against
`HEALTH_CHECK_TOKEN`; with no configured token, access is granted
outside production. -/
structure HealthRequest where
  authHeader : Option String
  tokenParam : Option String
  expectedToken : Option String
  nodeEnvProduction : Bool
deriving DecidableEq, Repr

/-- `verifyHealthCheckToken`, including the `||` falsy fallback from the
(possibly empty) header token to the query parameter. -/
def verifyHealthCheckToken (r : HealthRequest) : Bool :=
  let headerTok := r.authHeader.map (fun h => replaceFirst h "Bearer ")
  let token : Option String :=
    match headerTok with
    | some t => if t = "" then r.tokenParam else some t
    | none => r.tokenParam
  match r.expectedToken with
  | none => ¬ r.nodeEnvProduction
  | some e =>
      if e = "" then ¬ r.nodeEnvProduction
      else token == some e

/-- `switch (healthStatus.status)` of the GET handler; the `default: 500`
branch is unreachable for the three-valued status union. -/
def healthStatusCode (s : HealthState) : Nat :=
  match s with
  | .healthy => 200
  | .degraded => 200
  | .unhealthy => 503

inductive HealthBody where
  | unauthorized
  | report (h : HealthStatus)
  | failed (message : String)
deriving DecidableEq, Repr

structure HealthResponse where
  status : Nat
  contentType : String
  body : HealthBody
deriving DecidableEq, Repr

/-- The `try` body of GET /api/health-check: auth, then the awaited
health status (which may throw), mapped to an HTTP status code. -/
def healthGetBody (health : Except JsError HealthStatus)
    (req : HealthRequest) : Except JsError HealthResponse :=
  if verifyHealthCheckToken req = false then
    .ok { status := 401, contentType := "application/json", body := .unauthorized }
  else do
    let h ← health
    .ok { status := healthStatusCode h.state,
          contentType := "application/json", body := .report h }

/-- The health-check GET handler with its catch: failures answer 500 with
a JSON body carrying the error message. -/
def handleHealthGet (health : Except JsError HealthStatus)
    (req : HealthRequest) : HealthResponse :=
  match healthGetBody health req with
  | .ok r => r
  | .error e =>
      { status := 500, contentType := "application/json", body := .failed e.message }

end Routes

namespace Routes

theorem metricLine_mem (d : ResponseData) (now : Nat)
    (p : String × List Sample) (hp : p ∈ d.metrics) (latest : Sample)
    (hl : p.2.getLast? = some latest) :
    metricLine p.1 latest ∈ convertToPrometheusLines d now := by
  unfold convertToPrometheusLines
  refine List.mem_append_left _ (List.mem_append_left _ (List.mem_append_right _ ?_))
  exact List.mem_filterMap.mpr ⟨p, hp, by rw [hl]⟩

theorem getMetricsBody_ok (st : CollectorState) (req : MetricsRequest)
    (now : Nat) (hs : String) (hauth : verifyAuth req.auth = true)
    (hhealth : st.health = .ok hs) :
    getMetricsBody st req now =
      Except.ok (formatResponse req now (buildResponseData st req now
        (if req.summaryParam ≠ some "false" then some hs else none))) := by
  have hstep : healthFetch st req =
      Except.ok (if req.summaryParam ≠ some "false" then some hs else none) := by
    unfold healthFetch
    by_cases hsum : req.summaryParam ≠ some "false"
    · rw [if_pos hsum, if_pos hsum, hhealth]
    · rw [if_neg hsum, if_neg hsum]
  unfold getMetricsBody
  rw [if_neg (by simp [hauth])]
  show healthFetch st req >>= _ = _
  rw [hstep]
  rfl

end Routes

namespace Routes

/-- C6: for every authorized GET of /api/metrics (whose awaited health
fetch succeeds), `format=prometheus` yields a 200 plain-text response
(Content-Type 'text/plain; charset=utf-8') whose body is the Prometheus
conversion of the response data, in which every nonempty collected
metric contributes the line built from its latest sample; any other
format yields a 200 JSON response carrying the response data, whose
`metrics` field holds the (cutoff-filtered) collected metrics. -/
theorem C6_metrics_get_format (st : CollectorState) (req : MetricsRequest)
    (now : Nat) (hs : String) (hauth : verifyAuth req.auth = true)
    (hhealth : st.health = .ok hs) :
    (resolvedFormat req = "prometheus" →
      ∃ d : ResponseData,
        handleMetricsGet st req now =
          { status := 200, contentType := "text/plain; charset=utf-8",
            body := .prometheus (convertToPrometheus d now) } ∧
        d.metrics = getMetricsData st req.metricParam
          ((resolvedTimeRange req).map (fun tr => (now : Int) - tr)) ∧
        (∀ p ∈ d.metrics, ∀ latest : Sample, p.2.getLast? = some latest →
          metricLine p.1 latest ∈ convertToPrometheusLines d now)) ∧
    (resolvedFormat req ≠ "prometheus" →
      ∃ d : ResponseData,
        handleMetricsGet st req now =
          { status := 200, contentType := "application/json", body := .json d } ∧
        d.metrics = getMetricsData st req.metricParam
          ((resolvedTimeRange req).map (fun tr => (now : Int) - tr))) := by
  have hok := getMetricsBody_ok st req now hs hauth hhealth
  have hhandle : handleMetricsGet st req now =
      formatResponse req now (buildResponseData st req now
        (if req.summaryParam ≠ some "false" then some hs else none)) := by
    unfold handleMetricsGet
    rw [hok]
  constructor
  · intro hfmt
    refine ⟨buildResponseData st req now
      (if req.summaryParam ≠ some "false" then some hs else none), ?_, rfl, ?_⟩
    · rw [hhandle]
      unfold formatResponse
      rw [if_pos hfmt]
    · intro p hp latest hl
      exact metricLine_mem _ now p hp latest hl
  · intro hfmt
    refine ⟨buildResponseData st req now
      (if req.summaryParam ≠ some "false" then some hs else none), ?_, rfl⟩
    rw [hhandle]
    unfold formatResponse
    rw [if_neg hfmt]

/-- The concrete collector state of the C6 witness: one metric with two
samples. -/
def c6state : CollectorState :=
  { metrics := [("api_latency", [
      { value := 3, timestamp := 90, tags := none },
      { value := 7, timestamp := 95, tags := some [("route", "upload")] }])],
    activeAlerts := [],
    allAlerts := [],
    summaryPerformance := "perf",
    cacheStats := "cache",
    health := .ok "healthy",
    system := { uptime := 12, heapUsed := 1, heapTotal := 2, rss := 3,
                version := "v20", platform := "linux" } }

/-- The concrete authorized Prometheus request of the C6 witness. -/
def c6reqProm : MetricsRequest :=
  { auth := { publicMetrics := true, authHeader := none, metricsToken := "tok" },
    format := some "prometheus", metricParam := none, timeRangeParam := none,
    alertsParam := none, summaryParam := none }

/-- The same request asking for JSON. -/
def c6reqJson : MetricsRequest :=
  { auth := { publicMetrics := true, authHeader := none, metricsToken := "tok" },
    format := none, metricParam := none, timeRangeParam := none,
    alertsParam := none, summaryParam := none }

/-- Witness for C6 at a concrete state and time: the Prometheus branch
and the JSON branch, both through the theorem. -/
theorem C6_metrics_get_format_witness :
    (∃ d : ResponseData,
      handleMetricsGet c6state c6reqProm 100 =
        { status := 200, contentType := "text/plain; charset=utf-8",
          body := .prometheus (convertToPrometheus d 100) } ∧
      d.metrics = getMetricsData c6state c6reqProm.metricParam
        ((resolvedTimeRange c6reqProm).map (fun tr => (100 : Int) - tr)) ∧
      (∀ p ∈ d.metrics, ∀ latest : Sample, p.2.getLast? = some latest →
        metricLine p.1 latest ∈ convertToPrometheusLines d 100)) ∧
    (∃ d : ResponseData,
      handleMetricsGet c6state c6reqJson 100 =
        { status := 200, contentType := "application/json", body := .json d } ∧
      d.metrics = getMetricsData c6state c6reqJson.metricParam
        ((resolvedTimeRange c6reqJson).map (fun tr => (100 : Int) - tr))) :=
  ⟨(C6_metrics_get_format c6state c6reqProm 100 "healthy" (by decide) rfl).1 (by decide),
   (C6_metrics_get_format c6state c6reqJson 100 "healthy" (by decide) rfl).2 (by decide)⟩

/-- C7: every error raised inside the try blocks of GET/POST/DELETE on
/api/metrics and GET on /api/health-check is caught, and the handler
answers a JSON error response with HTTP status 500 instead of
propagating the exception. -/
theorem C7_errors_caught :
    (∀ (st : CollectorState) (req : MetricsRequest) (now : Nat) (e : JsError),
       getMetricsBody st req now = .error e →
       handleMetricsGet st req now =
         { status := 500, contentType := "application/json",
           body := .serverError now }) ∧
    (∀ (req : PostRequest) (now : Nat) (e : JsError),
       postMetricsBody req now = .error e →
       handleMetricsPost req now =
         { status := 500, contentType := "application/json",
           body := .failedAdd }) ∧
    (∀ (req : DeleteRequest) (e : JsError),
       deleteMetricsBody req = .error e →
       handleMetricsDelete req =
         { status := 500, contentType := "application/json",
           body := .failedCleanup }) ∧
    (∀ (health : Except JsError HealthStatus) (req : HealthRequest) (e : JsError),
       healthGetBody health req = .error e →
       handleHealthGet health req =
         { status := 500, contentType := "application/json",
           body := .failed e.message }) := by
  refine ⟨?_, ?_, ?_, ?_⟩
  · intro st req now e h
    unfold handleMetricsGet
    rw [h]
  · intro req now e h
    unfold handleMetricsPost
    rw [h]
  · intro req e h
    unfold handleMetricsDelete
    rw [h]
  · intro health req e h
    unfold handleHealthGet
    rw [h]

/-- The C7 witness state: the health check rejects. -/
def c7state : CollectorState :=
  { metrics := [], activeAlerts := [], allAlerts := [], summaryPerformance := "",
    cacheStats := "", health := .error { message := "health check failed" },
    system := { uptime := 0, heapUsed := 0, heapTotal := 0, rss := 0,
                version := "v", platform := "linux" } }

/-- Witness for C7: concrete failing effects for each of the four
handlers all produce the 500 JSON error responses. -/
theorem C7_errors_caught_witness :
    handleMetricsGet c7state c6reqJson 100 =
      { status := 500, contentType := "application/json",
        body := .serverError 100 } ∧
    handleMetricsPost
      { auth := { publicMetrics := true, authHeader := none, metricsToken := "tok" },
        bodyJson := .error { message := "invalid json" } } 100 =
      { status := 500, contentType := "application/json", body := .failedAdd } ∧
    handleMetricsDelete
      { auth := { publicMetrics := true, authHeader := none, metricsToken := "tok" },
        metricParam := none, clearAll := .error { message := "clear failed" } } =
      { status := 500, contentType := "application/json", body := .failedCleanup } ∧
    handleHealthGet (.error { message := "boom" })
      { authHeader := none, tokenParam := none, expectedToken := none,
        nodeEnvProduction := false } =
      { status := 500, contentType := "application/json", body := .failed "boom" } :=
  ⟨C7_errors_caught.1 c7state c6reqJson 100 { message := "health check failed" } rfl,
   C7_errors_caught.2.1 _ 100 { message := "invalid json" } rfl,
   C7_errors_caught.2.2.1 _ { message := "clear failed" } rfl,
   C7_errors_caught.2.2.2 _ _ { message := "boom" } rfl⟩

end Routes

namespace CsvDetector

open JsStr (jsTrim isJsWhitespace)

/-- `content.split(/\r?\n/)`: split on each newline, consuming a
preceding carriage return with it; a lone `\r` is not a separator. -/
def splitLinesAux : List Char → List Char → List (List Char)
  | [], acc => [acc.reverse]
  | '\r' :: '\n' :: rest, acc => acc.reverse :: splitLinesAux rest []
  | '\n' :: rest, acc => acc.reverse :: splitLinesAux rest []
  | c :: rest, acc => splitLinesAux rest (c :: acc)

def splitLines (s : String) : List String :=
  (splitLinesAux s.data []).map (fun cs => ⟨cs⟩)

/-- `CSVDetector.parseLine`: split on the delimiter outside quotes;
quote characters toggle the in-quotes flag and are dropped; every field
is trimmed. -/
def parseLineAux (delim : Char) : List Char → List Char → Bool → List String
  | [], current, _ => [jsTrim ⟨current.reverse⟩]
  | c :: rest, current, inQuotes =>
      if c = '"' then parseLineAux delim rest current (!inQuotes)
      else if c == delim && !inQuotes then
        jsTrim ⟨current.reverse⟩ :: parseLineAux delim rest [] inQuotes
      else parseLineAux delim rest (c :: current) inQuotes

def parseLine (line : String) (delim : Char) : List String :=
  parseLineAux delim line.data [] false

/-- `COMMON_DELIMITERS`. -/
def COMMON_DELIMITERS : List Char := [',', ';', '\t', '|', ':']

/-- The score of one candidate delimiter over the first ten lines
(`consistentLines / min(lines,10) * min(firstLineColumns,10) / 10`),
with JS float division as exact rationals. -/
def delimiterScore (lines : List String) (delim : Char) : Rat :=
  let firstTen := lines.take 10
  let counts := firstTen.map (fun l => (parseLine l delim).length)
  let firstLineColumns := counts.headD 0
  let consistentLines :=
    (counts.filter (fun c => c == firstLineColumns && decide (c > 1))).length
  ((consistentLines : Rat) / (min lines.length 10 : Rat)) *
    ((min firstLineColumns 10 : Rat) / 10)

/-- The `reduce` over `Object.entries(scores)`: keep the accumulator only
when its score is strictly greater, so ties go to the later delimiter. -/
def pickBestScore : Char × Rat → List (Char × Rat) → Char × Rat
  | a, [] => a
  | a, b :: rest => pickBestScore (if a.2 > b.2 then a else b) rest

/-- `CSVDetector.detectDelimiter`. -/
def detectDelimiter (lines : List String) : Char :=
  match COMMON_DELIMITERS.map (fun d => (d, delimiterScore lines d)) with
  | [] => ','
  | a :: rest => (pickBestScore a rest).1

/-- Exponent suffix of a JS decimal literal (`e`/`E`, optional sign,
one or more digits), or nothing. -/
def expTail (cs : List Char) : Bool :=
  match cs with
  | [] => true
  | e :: r =>
      (e == 'e' || e == 'E') &&
      (match r with
       | '+' :: r2 => (!r2.isEmpty) && r2.all JsStr.isDecDigit
       | '-' :: r2 => (!r2.isEmpty) && r2.all JsStr.isDecDigit
       | _ => (!r.isEmpty) && r.all JsStr.isDecDigit)

/-- Decimal body of a JS number literal: `digits [. digits] [exp]` or
`. digits [exp]`. -/
def decNumberBody (cs : List Char) : Bool :=
  let ip := cs.takeWhile JsStr.isDecDigit
  let rest := cs.drop ip.length
  if ip.isEmpty then
    match rest with
    | '.' :: r =>
        let fr := r.takeWhile JsStr.isDecDigit
        (!fr.isEmpty) && expTail (r.drop fr.length)
    | _ => false
  else
    match rest with
    | '.' :: r =>
        let fr := r.takeWhile JsStr.isDecDigit
        expTail (r.drop fr.length)
    | _ => expTail rest

/-- Whether `Number(t)` succeeds on a trimmed nonempty string: signed
decimal (possibly `Infinity`) or unsigned `0x`/`0o`/`0b` literal. -/
def isNumericString (t : String) : Bool :=
  match t.data with
  | '+' :: r => decNumberBody r || r == "Infinity".data
  | '-' :: r => decNumberBody r || r == "Infinity".data
  | '0' :: 'x' :: r => (!r.isEmpty) && r.all JsStr.isHexDigit
  | '0' :: 'X' :: r => (!r.isEmpty) && r.all JsStr.isHexDigit
  | '0' :: 'o' :: r => (!r.isEmpty) && r.all (fun c => '0' ≤ c && c ≤ '7')
  | '0' :: 'O' :: r => (!r.isEmpty) && r.all (fun c => '0' ≤ c && c ≤ '7')
  | '0' :: 'b' :: r => (!r.isEmpty) && r.all (fun c => c == '0' || c == '1')
  | '0' :: 'B' :: r => (!r.isEmpty) && r.all (fun c => c == '0' || c == '1')
  | cs => decNumberBody cs || cs == "Infinity".data

/-- `isNaN(Number(s))`: the empty (trimmed) string converts to 0, any
other non-literal to NaN. -/
def jsNumberIsNaN (s : String) : Bool :=
  let t := jsTrim s
  if t.data.isEmpty then false else !(isNumericString t)

def includesChar (s : String) (c : Char) : Bool := s.data.contains c

/-- `/^[a-zA-Z_][a-zA-Z0-9_]*$/`. -/
def identLike (s : String) : Bool :=
  match s.data with
  | [] => false
  | c :: rest =>
      (('a' ≤ c && c ≤ 'z') || ('A' ≤ c && c ≤ 'Z') || c == '_') &&
      rest.all (fun d =>
        ('a' ≤ d && d ≤ 'z') || ('A' ≤ d && d ≤ 'Z') || JsStr.isDecDigit d || d == '_')

/-- Score contribution of one column pair in `detectHeader`. -/
def headerScoreAt (firstValue secondValue : String) : Nat :=
  (if jsNumberIsNaN firstValue && !(jsNumberIsNaN secondValue) then 1 else 0) +
  (if !(includesChar firstValue '.') && !(includesChar firstValue '-') &&
      (includesChar secondValue '.' || includesChar secondValue '-') then 1 else 0) +
  (if decide (firstValue.length > 3) && identLike firstValue then 1 else 0)

/-- `CSVDetector.detectHeader`; the constant 0.6 is the exact rational
3/5 here (the claims do not depend on the binary rounding of 0.6). -/
def detectHeader (lines : List String) (delim : Char) : Bool :=
  if lines.length < 2 then true
  else
    let firstRow := parseLine (lines.getD 0 "") delim
    let secondRow := parseLine (lines.getD 1 "") delim
    if firstRow.length ≠ secondRow.length then false
    else
      let headerScore :=
        ((firstRow.zip secondRow).map
          (fun p => headerScoreAt (jsTrim p.1) (jsTrim p.2))).sum
      decide ((headerScore : Rat) ≥ (firstRow.length : Rat) * (3 / 5))

/-- `CSVDetector.detectEncoding`: the three patterns tested in insertion
order. -/
def detectEncoding (content : String) : String :=
  if content.data.any (fun c => decide (0xC0 ≤ c.toNat ∧ c.toNat ≤ 0x17F)) then "UTF-8"
  else if content.data.any (fun c => decide (0xC0 ≤ c.toNat ∧ c.toNat ≤ 0xFF)) then "ISO-8859-1"
  else if content.data.all (fun c => decide (c.toNat ≤ 0x7F)) then "ASCII"
  else "UTF-8"

/-- `CSVDetector.generateHeaders`. -/
def generateHeaders (columnCount : Nat) : List String :=
  (List.range columnCount).map (fun i => "column_" ++ toString (i + 1))

/-- `CSVDetector.calculateConfidence`: the fraction of parsed rows whose
column count matches the first row's. -/
def calculateConfidence (parsedLines : List (List String)) : Rat :=
  if parsedLines.isEmpty then 0
  else
    let expectedColumns := (parsedLines.headD []).length
    (((parsedLines.filter (fun row => row.length == expectedColumns)).length : Rat) /
      (parsedLines.length : Rat))

/-- `CSVStructure`. -/
structure CSVStructure where
  delimiter : Char
  hasHeader : Bool
  encoding : String
  lineCount : Nat
  columnCount : Nat
  headers : List String
  sampleData : List (List String)
  confidence : Rat
deriving DecidableEq, Repr

/-- `CSVDetector.detectStructure` (src/src/lib/csv-detector.ts, lines
38-72); the `throw new Error('Arquivo CSV vazio')` is the `Except.error`
case. -/
def detectStructure (content : String) : Except String CSVStructure :=
  let lines := (splitLines content).filter (fun l => jsTrim l != "")
  if lines.isEmpty then .error "Arquivo CSV vazio"
  else
    let delimiter := detectDelimiter lines
    let hasHeader := detectHeader lines delimiter
    let encoding := detectEncoding content
    let parsedLines := lines.map (fun l => parseLine l delimiter)
    let headers :=
      if hasHeader then parsedLines.headD []
      else generateHeaders (parsedLines.headD []).length
    let dataRows := if hasHeader then parsedLines.tail else parsedLines
    let confidence := calculateConfidence parsedLines
    .ok { delimiter := delimiter, hasHeader := hasHeader, encoding := encoding,
          lineCount := lines.length, columnCount := headers.length,
          headers := headers, sampleData := dataRows.take 10,
          confidence := confidence }

end CsvDetector

namespace CsvDetector

open JsStr (jsTrim isJsWhitespace isDecDigit)

/-- The `ColumnInfo['type']` union. -/
inductive ColType where
  | str | number | date | boolean | cpf | cnpj | email | phone | currency | id
deriving DecidableEq, Repr

def isDigits (cs : List Char) : Bool := cs.all isDecDigit

/-- `/^\d{3}\.\d{3}\.\d{3}-\d{2}$/`. -/
def cpfPattern (s : String) : Bool :=
  match s.data with
  | [a, b, c, '.', d, e, f, '.', g, h, i, '-', j, k] =>
      isDigits [a, b, c, d, e, f, g, h, i, j, k]
  | _ => false

/-- `/^\d{2}\.\d{3}\.\d{3}\/\d{4}-\d{2}$/`. -/
def cnpjPattern (s : String) : Bool :=
  match s.data with
  | [a, b, '.', c, d, e, '.', f, g, h, '/', i, j, k, l, '-', m, n] =>
      isDigits [a, b, c, d, e, f, g, h, i, j, k, l, m, n]
  | _ => false

/-- `/^[^\s@]+@[^\s@]+\.[^\s@]+$/`: exactly one `@`, no whitespace, and a
dot inside the domain that is neither first nor last. -/
def emailPattern (s : String) : Bool :=
  let cs := s.data
  let localPart := cs.takeWhile (fun c => !(c == '@'))
  match cs.drop localPart.length with
  | '@' :: domain =>
      (!localPart.isEmpty) &&
      localPart.all (fun c => !(isJsWhitespace c)) &&
      domain.all (fun c => !(isJsWhitespace c) && !(c == '@')) &&
      ((domain.drop 1).dropLast.contains '.')
  | _ => false

/-- `\d{4,5}-?\d{4}$` after the phone prefix: 8 or 9 bare digits, or 4-5
digits, a dash, and 4 digits. -/
def phoneTail (cs : List Char) : Bool :=
  match cs with
  | [a, b, c, d, e, f, g, h] => isDigits [a, b, c, d, e, f, g, h]
  | [a, b, c, d, e, f, g, h, i] =>
      isDigits [a, b, c, d, e, f, g, h, i] ||
      (e == '-' && isDigits [a, b, c, d] && isDigits [f, g, h, i])
  | [a, b, c, d, e, f, g, h, i, j] =>
      f == '-' && isDigits [a, b, c, d, e] && isDigits [g, h, i, j]
  | _ => false

/-- `/^\(?\d{2}\)?\s?\d{4,5}-?\d{4}$/`. -/
def phonePattern (s : String) : Bool :=
  let cs := match s.data with
    | '(' :: r => r
    | r => r
  match cs with
  | a :: b :: r1 =>
      isDecDigit a && isDecDigit b &&
      (let r2 := match r1 with
        | ')' :: r => r
        | _ => r1
       let r3 := match r2 with
        | c :: r => if isJsWhitespace c then r else r2
        | [] => r2
       phoneTail r3)
  | _ => false

/-- `^\d{4}-\d{2}-\d{2}` anchored at the start only. -/
def dateIsoPrefixAt (cs : List Char) : Bool :=
  match cs with
  | a :: b :: c :: d :: '-' :: e :: f :: '-' :: g :: h :: _ =>
      isDigits [a, b, c, d, e, f, g, h]
  | _ => false

/-- `\d{2}\/\d{2}\/\d{4}` matched at this position. -/
def dateBrSlashAt (cs : List Char) : Bool :=
  match cs with
  | a :: b :: '/' :: c :: d :: '/' :: e :: f :: g :: h :: _ =>
      isDigits [a, b, c, d, e, f, g, h]
  | _ => false

def anyTail (p : List Char → Bool) : List Char → Bool
  | [] => p []
  | c :: rest => p (c :: rest) || anyTail p rest

/-- `\d{2}-\d{2}-\d{4}$` anchored at the end only. -/
def dateBrDashSuffix (cs : List Char) : Bool :=
  match cs.reverse with
  | a :: b :: c :: d :: '-' :: e :: f :: '-' :: g :: h :: _ =>
      isDigits [a, b, c, d, e, f, g, h]
  | _ => false

/-- `/^\d{4}-\d{2}-\d{2}|\d{2}\/\d{2}\/\d{4}|\d{2}-\d{2}-\d{4}$/`: by
regex alternation precedence, only the first branch is anchored at the
start and only the last at the end; the middle one matches anywhere. -/
def datePattern (s : String) : Bool :=
  dateIsoPrefixAt s.data || anyTail dateBrSlashAt s.data || dateBrDashSuffix s.data

/-- `/^-?\d+[.,]\d{2}$/`. -/
def currencyPattern (s : String) : Bool :=
  let cs := match s.data with
    | '-' :: r => r
    | r => r
  let ip := cs.takeWhile isDecDigit
  (!ip.isEmpty) &&
  (match cs.drop ip.length with
   | [sep, a, b] => (sep == '.' || sep == ',') && isDecDigit a && isDecDigit b
   | _ => false)

/-- `/^-?\d+([.,]\d+)?$/`. -/
def numberPattern (s : String) : Bool :=
  let cs := match s.data with
    | '-' :: r => r
    | r => r
  let ip := cs.takeWhile isDecDigit
  (!ip.isEmpty) &&
  (match cs.drop ip.length with
   | [] => true
   | sep :: rest => (sep == '.' || sep == ',') && (!rest.isEmpty) && rest.all isDecDigit)

/-- `/^(true|false|sim|não|s|n|0|1)$/i`: case-insensitive full match,
with the Latin-1 simple folding of `Ã`. -/
def boolPattern (s : String) : Bool :=
  let t : String := ⟨s.data.map (fun c =>
    if 'A' ≤ c && c ≤ 'Z' then Char.ofNat (c.toNat + 32)
    else if c = 'Ã' then 'ã' else c)⟩
  t == "true" || t == "false" || t == "sim" || t == "não" ||
  t == "s" || t == "n" || t == "0" || t == "1"

/-- `/^[A-Z]{2}-\d+|\d+$/`: either the prefix `[A-Z]{2}-\d` at the start,
or a digit at the end. -/
def idPattern (s : String) : Bool :=
  (match s.data with
   | a :: b :: '-' :: c :: _ =>
       ('A' ≤ a && a ≤ 'Z') && ('A' ≤ b && b ≤ 'Z') && isDecDigit c
   | _ => false) ||
  (match s.data.reverse with
   | c :: _ => isDecDigit c
   | [] => false)

/-- The `patterns` table of `calculateTypeConfidence`; every member of
the type union has a pattern, so the `return 0.5` fallback of the source
is unreachable. -/
def typePattern : ColType → (String → Bool)
  | .cpf => cpfPattern
  | .cnpj => cnpjPattern
  | .email => emailPattern
  | .phone => phonePattern
  | .date => datePattern
  | .currency => currencyPattern
  | .number => numberPattern
  | .boolean => boolPattern
  | .id => idPattern
  | .str => fun _ => true

/-- `CSVDetector.calculateTypeConfidence`: the fraction of (trimmed)
sample values matching the type's pattern. -/
def calculateTypeConfidence (values : List String) (ty : ColType) : Rat :=
  if values.isEmpty then 0
  else
    (((values.filter (fun v => typePattern ty (jsTrim v))).length : Rat) /
      (values.length : Rat))

end CsvDetector

namespace CsvDetector

open JsStr (jsTrim isJsWhitespace)

theorem jsTrim_eq_empty_iff (s : String) :
    jsTrim s = "" ↔ ∀ c ∈ s.data, isJsWhitespace c := by
  unfold jsTrim
  constructor
  · intro h c hc
    have hl : ((s.data.dropWhile isJsWhitespace).reverse.dropWhile isJsWhitespace).reverse
        = [] := congrArg String.data h
    rw [List.reverse_eq_nil_iff, List.dropWhile_eq_nil_iff] at hl
    have hsplit := List.takeWhile_append_dropWhile (p := isJsWhitespace) (l := s.data)
    rw [← hsplit] at hc
    rcases List.mem_append.mp hc with h1 | h1
    · exact List.mem_takeWhile_imp h1
    · exact hl c (List.mem_reverse.mpr h1)
  · intro h
    have h1 : s.data.dropWhile isJsWhitespace = [] :=
      List.dropWhile_eq_nil_iff.mpr (fun x hx => h x hx)
    rw [h1]
    rfl

theorem C9_detectStructure_shape (content : String) :
    (detectStructure content = .error "Arquivo CSV vazio" ↔
      ∀ l ∈ splitLines content, ∀ c ∈ l.data, isJsWhitespace c) ∧
    (∀ st : CSVStructure, detectStructure content = .ok st →
      st.headers.length = st.columnCount ∧ st.sampleData.length ≤ 10) ∧
    (¬ (∀ l ∈ splitLines content, ∀ c ∈ l.data, isJsWhitespace c) →
      ∃ st, detectStructure content = .ok st) := by
  have hiff : ((splitLines content).filter (fun l => jsTrim l != "")) = [] ↔
      ∀ l ∈ splitLines content, ∀ c ∈ l.data, isJsWhitespace c := by
    rw [List.filter_eq_nil_iff]
    constructor
    · intro h l hl
      have := h l hl
      simp only [bne_iff_ne, ne_eq, not_not] at this
      exact (jsTrim_eq_empty_iff l).mp this
    · intro h l hl
      simp only [bne_iff_ne, ne_eq, not_not]
      exact (jsTrim_eq_empty_iff l).mpr (h l hl)
  unfold detectStructure
  by_cases hempty : ((splitLines content).filter (fun l => jsTrim l != "")).isEmpty
  · rw [if_pos hempty]
    have hnil : ((splitLines content).filter (fun l => jsTrim l != "")) = [] :=
      List.isEmpty_iff.mp hempty
    refine ⟨⟨fun _ => hiff.mp hnil, fun _ => rfl⟩, ?_, ?_⟩
    · intro st h
      simp at h
    · intro hn
      exact absurd (hiff.mp hnil) hn
  · rw [if_neg hempty]
    refine ⟨⟨fun h => by simp at h, fun hall => ?_⟩, ?_, fun _ => ⟨_, rfl⟩⟩
    · exact absurd (by rw [hiff.mpr hall]; rfl) hempty
    · intro st h
      have hst := Except.ok.inj h
      subst hst
      exact ⟨rfl, List.length_take_le _ _⟩

theorem calculateConfidence_bounds (pl : List (List String)) :
    0 ≤ calculateConfidence pl ∧ calculateConfidence pl ≤ 1 := by
  unfold calculateConfidence
  by_cases h : pl.isEmpty
  · rw [if_pos h]
    norm_num
  · rw [if_neg h]
    have hlen : 0 < pl.length := by
      cases pl
      · simp at h
      · simp
    constructor
    · positivity
    · rw [div_le_one (by exact_mod_cast hlen)]
      exact_mod_cast List.length_filter_le _ _

theorem calculateTypeConfidence_bounds (values : List String) (ty : ColType) :
    0 ≤ calculateTypeConfidence values ty ∧ calculateTypeConfidence values ty ≤ 1 := by
  unfold calculateTypeConfidence
  by_cases h : values.isEmpty
  · rw [if_pos h]
    norm_num
  · rw [if_neg h]
    have hlen : 0 < values.length := by
      cases values
      · simp at h
      · simp
    constructor
    · positivity
    · rw [div_le_one (by exact_mod_cast hlen)]
      exact_mod_cast List.length_filter_le _ _

/-- C10: both detector confidences are fractions in [0,1]:
`calculateConfidence` is the fraction of parsed rows whose column count
matches the first row's, and `calculateTypeConfidence` is the fraction
of (trimmed) sample values matching the type's pattern. -/
theorem C10_confidence_in_unit_interval :
    (∀ parsedLines : List (List String),
      0 ≤ calculateConfidence parsedLines ∧ calculateConfidence parsedLines ≤ 1 ∧
      (parsedLines ≠ [] →
        calculateConfidence parsedLines =
          ((parsedLines.filter
              (fun row => row.length == (parsedLines.headD []).length)).length : Rat) /
            (parsedLines.length : Rat))) ∧
    (∀ (values : List String) (ty : ColType),
      0 ≤ calculateTypeConfidence values ty ∧ calculateTypeConfidence values ty ≤ 1 ∧
      (values ≠ [] →
        calculateTypeConfidence values ty =
          ((values.filter (fun v => typePattern ty (jsTrim v))).length : Rat) /
            (values.length : Rat))) := by
  constructor
  · intro pl
    refine ⟨(calculateConfidence_bounds pl).1, (calculateConfidence_bounds pl).2, ?_⟩
    intro hne
    unfold calculateConfidence
    rw [if_neg (by simpa using hne)]
  · intro values ty
    refine ⟨(calculateTypeConfidence_bounds values ty).1,
      (calculateTypeConfidence_bounds values ty).2, ?_⟩
    intro hne
    unfold calculateTypeConfidence
    rw [if_neg (by simpa using hne)]

end CsvDetector

namespace CsvDetector

open JsStr (jsTrim)

/-- Witness for C9: the empty file raises `Arquivo CSV vazio`, and a
concrete two-line CSV yields a structure with matching header count and
at most 10 sample rows. -/
theorem C9_detectStructure_shape_witness :
    detectStructure "" = .error "Arquivo CSV vazio" ∧
    (∃ st : CSVStructure, detectStructure "name,age\njoao,30" = .ok st ∧
      st.headers.length = st.columnCount ∧ st.sampleData.length ≤ 10) := by
  constructor
  · exact (C9_detectStructure_shape "").1.mpr (by decide)
  · obtain ⟨st, hst⟩ := (C9_detectStructure_shape "name,age\njoao,30").2.2 (by decide)
    exact ⟨st, hst, ((C9_detectStructure_shape "name,age\njoao,30").2.1 st hst).1,
      ((C9_detectStructure_shape "name,age\njoao,30").2.1 st hst).2⟩

/-- Witness for C10 at concrete inputs: one of two rows is consistent and
one of two values is numeric, giving confidence 1/2 in both senses. -/
theorem C10_confidence_in_unit_interval_witness :
    (0 ≤ calculateConfidence [["a"], ["b", "c"]] ∧
      calculateConfidence [["a"], ["b", "c"]] ≤ 1 ∧
      calculateConfidence [["a"], ["b", "c"]] =
        ((([["a"], ["b", "c"]] : List (List String)).filter
            (fun row => row.length == (([["a"], ["b", "c"]] : List (List String)).headD []).length)).length : Rat) /
          (([["a"], ["b", "c"]] : List (List String)).length : Rat)) ∧
    (0 ≤ calculateTypeConfidence ["12", "x"] .number ∧
      calculateTypeConfidence ["12", "x"] .number ≤ 1 ∧
      calculateTypeConfidence ["12", "x"] .number =
        (((["12", "x"] : List String).filter
            (fun v => typePattern .number (jsTrim v))).length : Rat) /
          ((["12", "x"] : List String).length : Rat)) := by
  constructor
  · have h := C10_confidence_in_unit_interval.1 [["a"], ["b", "c"]]
    exact ⟨h.1, h.2.1, h.2.2 (by decide)⟩
  · have h := C10_confidence_in_unit_interval.2 ["12", "x"] .number
    exact ⟨h.1, h.2.1, h.2.2 (by decide)⟩

end CsvDetector
